import Mathlib

/-!
# Ledger core of `core-banking-api`

A shallow embedding of `services/transaction_service.go` together with the
parts of `models/account.go` and `models/transaction.go` it relies on, of
`AccountService.ValidateAccountOwnership` and of the identifier generator of
`utils/auth.go`.

* Amounts and balances (`float64` in the source) are exact rationals.
* The database is a pair of tables held as lists of rows.  A database
  transaction (`s.db.Begin()` ... `tx.Commit()`) works on a copy of the
  tables: `tx.Rollback()` and a failed `tx.Commit()` leave the store as it
  was before `Begin`, a successful `tx.Commit()` installs the copy.
* Every statement sent to the database may fail; which ones do is given by
  `Env.fails`.  Besides that, an `INSERT` fails when it violates the primary
  key of `transactions` or the `uniqueIndex` on `transaction_id`.
* `uuid.Parse`, `uuid.New` and the clock are inputs (`Env`).
* The `deleted_at` columns are never written by the repository and are left
  out: every row counts as not deleted.
* The read operations are functions of the store; whether their query
  returns a database error is an input (`dbFails`).
* `hex.EncodeToString` is modelled on lists of bytes, `crypto/rand` as a
  stream of bytes.
-/

namespace CoreBanking

/-- Values of `uuid.UUID`. -/
abbrev UUID := Nat

/-- The zero identifier `uuid.Nil`. -/
def UUID.Nil : UUID := 0

/-- The `models.AccountType` constants. -/
inductive AccountType
  | checking
  | saving
  deriving DecidableEq, Repr

/-- The `models.TransactionType` constants. -/
inductive TransactionType
  | deposit
  | withdraw
  | transfer
  deriving DecidableEq, Repr

/-- The `models.TransactionStatus` constants. -/
inductive TransactionStatus
  | pending
  | completed
  | failed
  | cancelled
  deriving DecidableEq, Repr

/-- A row of `models.Account` (timestamps and associations left out). -/
structure Account where
  ID : UUID
  AccountNumber : String
  Type_ : AccountType
  Balance : ℚ
  Currency : String
  IsActive : Bool
  UserID : UUID
  deriving DecidableEq

/-- A row of `models.Transaction` (`UpdatedAt` and associations left out). -/
structure Transaction where
  ID : UUID
  TransactionID : String
  Type_ : TransactionType
  Amount : ℚ
  Currency : String
  Status : TransactionStatus
  Description : String
  AccountID : UUID
  ToAccountID : Option UUID
  BalanceBefore : ℚ
  BalanceAfter : ℚ
  CreatedAt : Nat
  deriving DecidableEq

/-- The two tables the ledger reads and writes. -/
structure Store where
  accounts : List Account
  transactions : List Transaction
  deriving DecidableEq

/-- The errors returned by the transaction service, one per message. -/
inductive LedgerError
  | invalidAmount
  | invalidAccountID
  | accountNotFound
  | failedToFindAccount
  | sameAccountTransfer
  | insufficientBalance
  | failedToCreateTransaction
  | failedToUpdateAccountBalance
  | failedToUpdateSourceAccountBalance
  | failedToUpdateDestinationAccountBalance
  | failedToUpdateTransactionStatus
  | failedToCommitTransaction
  deriving DecidableEq, Repr

/-- The message of each error (for wrapped database errors, the text before
the database's own message). -/
def LedgerError.message : LedgerError → String
  | .invalidAmount => "amount must be greater than zero"
  | .invalidAccountID => "invalid account ID"
  | .accountNotFound => "account not found"
  | .failedToFindAccount => "failed to find account: "
  | .sameAccountTransfer => "cannot transfer to the same account"
  | .insufficientBalance => "insufficient balance"
  | .failedToCreateTransaction => "failed to create transaction: "
  | .failedToUpdateAccountBalance => "failed to update account balance: "
  | .failedToUpdateSourceAccountBalance => "failed to update source account balance: "
  | .failedToUpdateDestinationAccountBalance =>
      "failed to update destination account balance: "
  | .failedToUpdateTransactionStatus => "failed to update transaction status: "
  | .failedToCommitTransaction => "failed to commit transaction: "

/-- The database statements a ledger call issues, in program order. -/
inductive Step
  | findAccount
  | findToAccount
  | create
  | updateBalance
  | updateToBalance
  | updateStatus
  | commit
  deriving DecidableEq, Repr

/-- What a call takes from outside the program: the result of `uuid.Parse`
on each string, the value `uuid.New()` returns, the clock, and the database
statements that return an error other than a constraint violation. -/
structure Env where
  parse : String → Option UUID
  newUUID : UUID
  now : Nat
  fails : Step → Bool

/-- The result of a ledger call: the returned pair `(*Transaction, error)` and
the store afterwards. -/
abbrev Outcome := Except LedgerError Transaction × Store

/-- The query `Where("id = ? AND is_active = ?", id, true).First(&account)`. -/
def firstActiveAccount (st : Store) (id : UUID) : Option Account :=
  st.accounts.find? (fun a => a.ID == id && a.IsActive)

/-- `TransactionService.GetAccountByID`; `step` names the query it issues. -/
def GetAccountByID (env : Env) (step : Step) (st : Store) (accountID : String) :
    Except LedgerError Account :=
  match env.parse accountID with
  | none => .error .invalidAccountID
  | some id =>
    if env.fails step then .error .failedToFindAccount
    else
      match firstActiveAccount st id with
      | none => .error .accountNotFound
      | some account => .ok account

/-- `Transaction.BeforeCreate`. -/
def BeforeCreate (env : Env) (t : Transaction) : Transaction :=
  if t.ID = UUID.Nil then { t with ID := env.newUUID } else t

/-- The column default of `Currency` (`gorm:"default:'USD'"`): an empty value
is replaced on insert, in the row and in the struct. -/
def defaultCurrency (c : String) : String :=
  if c = "" then "USD" else c

/-- `tx.Create(transaction)`: runs the hook, fills the defaults and the
creation time, and inserts the row unless the statement fails or the row
clashes with the primary key or with the unique index on `transaction_id`.
Returns the struct as it is after the call and the tables. -/
def dbCreate (env : Env) (tx : Store) (t : Transaction) : Option (Transaction × Store) :=
  let t1 := BeforeCreate env t
  let t2 := { t1 with Currency := defaultCurrency t1.Currency, CreatedAt := env.now }
  if env.fails .create then none
  else if tx.transactions.any (fun r => r.ID == t2.ID || r.TransactionID == t2.TransactionID)
  then none
  else some (t2, { tx with transactions := tx.transactions ++ [t2] })

/-- The effect of `UPDATE accounts SET balance = b WHERE id = id` on one row. -/
def setBalance (id : UUID) (b : ℚ) (a : Account) : Account :=
  if a.ID = id then { a with Balance := b } else a

/-- The effect of `UPDATE transactions SET status = s WHERE id = id` on one row. -/
def setStatus (id : UUID) (s : TransactionStatus) (r : Transaction) : Transaction :=
  if r.ID = id then { r with Status := s } else r

/-- `tx.Model(&models.Account{}).Where("id = ?", id).Update("balance", b)`. -/
def dbUpdateBalance (env : Env) (step : Step) (tx : Store) (id : UUID) (b : ℚ) :
    Option Store :=
  if env.fails step then none
  else some { tx with accounts := tx.accounts.map (setBalance id b) }

/-- `tx.Model(transaction).Update("status", s)`: updates the row with the
struct's primary key and the struct itself. -/
def dbUpdateStatus (env : Env) (tx : Store) (t : Transaction) (s : TransactionStatus) :
    Option (Transaction × Store) :=
  if env.fails .updateStatus then none
  else some ({ t with Status := s },
    { tx with transactions := tx.transactions.map (setStatus t.ID s) })

/-- `tx.Commit()`: the store after the call, if the commit succeeds. -/
def dbCommit (env : Env) (tx : Store) : Option Store :=
  if env.fails .commit then none else some tx

/-- `TransactionService.ProcessDeposit`. -/
def ProcessDeposit (env : Env) (st : Store) (accountID : String) (amount : ℚ)
    (description : String) : Outcome :=
  if amount ≤ 0 then (.error .invalidAmount, st)
  else
    match GetAccountByID env .findAccount st accountID with
    | .error e => (.error e, st)
    | .ok account =>
      let transaction : Transaction :=
        { ID := UUID.Nil
          TransactionID := ""
          Type_ := .deposit
          Amount := amount
          Currency := account.Currency
          Status := .pending
          Description := description
          AccountID := account.ID
          ToAccountID := none
          BalanceBefore := account.Balance
          BalanceAfter := account.Balance + amount
          CreatedAt := 0 }
      match dbCreate env st transaction with
      | none => (.error .failedToCreateTransaction, st)
      | some (transaction, tx1) =>
        let newBalance := account.Balance + amount
        match dbUpdateBalance env .updateBalance tx1 account.ID newBalance with
        | none => (.error .failedToUpdateAccountBalance, st)
        | some tx2 =>
          match dbUpdateStatus env tx2 transaction .completed with
          | none => (.error .failedToUpdateTransactionStatus, st)
          | some (transaction, tx3) =>
            match dbCommit env tx3 with
            | none => (.error .failedToCommitTransaction, st)
            | some st' => (.ok transaction, st')

/-- `TransactionService.ProcessWithdrawal`. -/
def ProcessWithdrawal (env : Env) (st : Store) (accountID : String) (amount : ℚ)
    (description : String) : Outcome :=
  if amount ≤ 0 then (.error .invalidAmount, st)
  else
    match GetAccountByID env .findAccount st accountID with
    | .error e => (.error e, st)
    | .ok account =>
      if account.Balance < amount then (.error .insufficientBalance, st)
      else
        let transaction : Transaction :=
          { ID := UUID.Nil
            TransactionID := ""
            Type_ := .withdraw
            Amount := amount
            Currency := account.Currency
            Status := .pending
            Description := description
            AccountID := account.ID
            ToAccountID := none
            BalanceBefore := account.Balance
            BalanceAfter := account.Balance - amount
            CreatedAt := 0 }
        match dbCreate env st transaction with
        | none => (.error .failedToCreateTransaction, st)
        | some (transaction, tx1) =>
          let newBalance := account.Balance - amount
          match dbUpdateBalance env .updateBalance tx1 account.ID newBalance with
          | none => (.error .failedToUpdateAccountBalance, st)
          | some tx2 =>
            match dbUpdateStatus env tx2 transaction .completed with
            | none => (.error .failedToUpdateTransactionStatus, st)
            | some (transaction, tx3) =>
              match dbCommit env tx3 with
              | none => (.error .failedToCommitTransaction, st)
              | some st' => (.ok transaction, st')

/-- `TransactionService.ProcessTransfer`. -/
def ProcessTransfer (env : Env) (st : Store) (fromAccountID toAccountID : String)
    (amount : ℚ) (description : String) : Outcome :=
  if amount ≤ 0 then (.error .invalidAmount, st)
  else
    match GetAccountByID env .findAccount st fromAccountID with
    | .error e => (.error e, st)
    | .ok fromAccount =>
      match GetAccountByID env .findToAccount st toAccountID with
      | .error e => (.error e, st)
      | .ok toAccount =>
        if fromAccount.ID = toAccount.ID then (.error .sameAccountTransfer, st)
        else if fromAccount.Balance < amount then (.error .insufficientBalance, st)
        else
          let transaction : Transaction :=
            { ID := UUID.Nil
              TransactionID := ""
              Type_ := .transfer
              Amount := amount
              Currency := fromAccount.Currency
              Status := .pending
              Description := description
              AccountID := fromAccount.ID
              ToAccountID := some toAccount.ID
              BalanceBefore := fromAccount.Balance
              BalanceAfter := fromAccount.Balance - amount
              CreatedAt := 0 }
          match dbCreate env st transaction with
          | none => (.error .failedToCreateTransaction, st)
          | some (transaction, tx1) =>
            let newFromBalance := fromAccount.Balance - amount
            match dbUpdateBalance env .updateBalance tx1 fromAccount.ID newFromBalance with
            | none => (.error .failedToUpdateSourceAccountBalance, st)
            | some tx2 =>
              let newToBalance := toAccount.Balance + amount
              match dbUpdateBalance env .updateToBalance tx2 toAccount.ID newToBalance with
              | none => (.error .failedToUpdateDestinationAccountBalance, st)
              | some tx3 =>
                match dbUpdateStatus env tx3 transaction .completed with
                | none => (.error .failedToUpdateTransactionStatus, st)
                | some (transaction, tx4) =>
                  match dbCommit env tx4 with
                  | none => (.error .failedToCommitTransaction, st)
                  | some st' => (.ok transaction, st')

/-- The row `tx.Create` would insert clashes with no row of the table: no
row has the primary key `env.newUUID` and none has the empty
`transaction_id` the ledger operations insert. -/
def noClash (env : Env) (st : Store) : Prop :=
  ∀ r ∈ st.transactions, r.ID ≠ env.newUUID ∧ r.TransactionID ≠ ""

/-- The record a deposit into `account` returns once it is completed. -/
def depositRecord (env : Env) (account : Account) (amount : ℚ) (description : String) :
    Transaction :=
  { ID := env.newUUID, TransactionID := "", Type_ := .deposit, Amount := amount,
    Currency := defaultCurrency account.Currency, Status := .completed,
    Description := description, AccountID := account.ID, ToAccountID := none,
    BalanceBefore := account.Balance, BalanceAfter := account.Balance + amount,
    CreatedAt := env.now }

/-- The record a withdrawal from `account` returns once it is completed. -/
def withdrawRecord (env : Env) (account : Account) (amount : ℚ) (description : String) :
    Transaction :=
  { ID := env.newUUID, TransactionID := "", Type_ := .withdraw, Amount := amount,
    Currency := defaultCurrency account.Currency, Status := .completed,
    Description := description, AccountID := account.ID, ToAccountID := none,
    BalanceBefore := account.Balance, BalanceAfter := account.Balance - amount,
    CreatedAt := env.now }

/-- The record a transfer from `fromAccount` to `toAccount` returns once it is
completed. -/
def transferRecord (env : Env) (fromAccount toAccount : Account) (amount : ℚ)
    (description : String) : Transaction :=
  { ID := env.newUUID, TransactionID := "", Type_ := .transfer, Amount := amount,
    Currency := defaultCurrency fromAccount.Currency, Status := .completed,
    Description := description, AccountID := fromAccount.ID,
    ToAccountID := some toAccount.ID,
    BalanceBefore := fromAccount.Balance, BalanceAfter := fromAccount.Balance - amount,
    CreatedAt := env.now }

/-- A call of one of the three ledger operations, with its arguments. -/
inductive Call
  | deposit (accountID : String) (amount : ℚ) (description : String)
  | withdraw (accountID : String) (amount : ℚ) (description : String)
  | transfer (fromAccountID toAccountID : String) (amount : ℚ) (description : String)

/-- Runs one call on a store. -/
def Call.run (env : Env) (st : Store) : Call → Outcome
  | .deposit a m d => ProcessDeposit env st a m d
  | .withdraw a m d => ProcessWithdrawal env st a m d
  | .transfer a b m d => ProcessTransfer env st a b m d

/-- Runs a sequence of calls one after another, each with its own
environment, and returns the final store. -/
def runCalls (st : Store) (calls : List (Env × Call)) : Store :=
  calls.foldl (fun s ec => (ec.2.run ec.1 s).2) st

/-- Runs a sequence of calls one after another, each with its own
environment, and returns what each call returned, in order, and the final
store. -/
def runCallsTrace (st : Store) :
    List (Env × Call) → List (Except LedgerError Transaction) × Store
  | [] => ([], st)
  | ec :: rest =>
    let r := ec.2.run ec.1 st
    let rs := runCallsTrace r.2 rest
    (r.1 :: rs.1, rs.2)

/-- The audit equation of a transaction record: the amount is positive and
`BalanceAfter` is `BalanceBefore` plus the amount for a deposit, minus the
amount for a withdrawal or a transfer. -/
def auditOK (t : Transaction) : Prop :=
  0 < t.Amount ∧
    match t.Type_ with
    | .deposit => t.BalanceAfter = t.BalanceBefore + t.Amount
    | .withdraw => t.BalanceAfter = t.BalanceBefore - t.Amount
    | .transfer => t.BalanceAfter = t.BalanceBefore - t.Amount

/-! ## Read operations -/

/-- The errors returned by the read operations of the transaction service and
by `AccountService.ValidateAccountOwnership`, one per message. -/
inductive QueryError
  | invalidAccountID
  | invalidUserID
  | invalidTransactionID
  | transactionNotFound
  | failedToFindTransaction
  | failedToFindTransactions
  | failedToValidateOwnership
  | accountNotFoundOrAccessDenied
  deriving DecidableEq, Repr

/-- The message of each read error (for wrapped database errors, the text
before the database's own message). -/
def QueryError.message : QueryError → String
  | .invalidAccountID => "invalid account ID"
  | .invalidUserID => "invalid user ID"
  | .invalidTransactionID => "invalid transaction ID"
  | .transactionNotFound => "transaction not found"
  | .failedToFindTransaction => "failed to find transaction: "
  | .failedToFindTransactions => "failed to find transactions: "
  | .failedToValidateOwnership => "failed to validate account ownership: "
  | .accountNotFoundOrAccessDenied => "account not found or access denied"

/-- `TransactionService.GetTransactionByID`: the argument is parsed as a UUID
and the row is selected by `Where("id = ?", id).First(&transaction)`.
`dbFails` says that the query returns an error other than record-not-found. -/
def GetTransactionByID (env : Env) (dbFails : Bool) (st : Store) (transactionID : String) :
    Except QueryError Transaction :=
  match env.parse transactionID with
  | none => .error .invalidTransactionID
  | some id =>
    if dbFails then .error .failedToFindTransaction
    else
      match st.transactions.find? (fun t => t.ID == id) with
      | none => .error .transactionNotFound
      | some transaction => .ok transaction

/-- The condition `account_id = ? OR to_account_id = ?`. -/
def involves (a : UUID) (t : Transaction) : Bool :=
  t.AccountID == a || t.ToAccountID == some a

/-- The rows selected by
`Where("account_id = ? OR to_account_id = ?", a, a).Order("created_at DESC")`. -/
def transactionsOf (st : Store) (a : UUID) : List Transaction :=
  (st.transactions.filter (involves a)).insertionSort (fun t u => u.CreatedAt ≤ t.CreatedAt)

/-- `.Limit(limit).Offset(offset)` for a positive `limit`: an `OFFSET` is
issued only for a positive offset. -/
def dbLimitOffset (limit offset : Int) (rows : List Transaction) : List Transaction :=
  (rows.drop offset.toNat).take limit.toNat

/-- `TransactionService.GetTransactionsByAccountID`.  `dbFails` says that the
query returns an error. -/
def GetTransactionsByAccountID (env : Env) (dbFails : Bool) (st : Store) (accountID : String)
    (limit offset : Int) : Except QueryError (List Transaction) :=
  match env.parse accountID with
  | none => .error .invalidAccountID
  | some accountUUID =>
    let limit := if limit ≤ 0 then 50 else limit
    if dbFails then .error .failedToFindTransactions
    else .ok (dbLimitOffset limit offset (transactionsOf st accountUUID))

/-- `AccountService.ValidateAccountOwnership`: counts the rows with
`id = ? AND user_id = ? AND is_active = ?`.  `dbFails` says that the query
returns an error. -/
def ValidateAccountOwnership (env : Env) (dbFails : Bool) (st : Store)
    (accountID userID : String) : Except QueryError Unit :=
  match env.parse accountID with
  | none => .error .invalidAccountID
  | some accountUUID =>
    match env.parse userID with
    | none => .error .invalidUserID
    | some userUUID =>
      if dbFails then .error .failedToValidateOwnership
      else
        let count := st.accounts.countP
          (fun a => a.ID == accountUUID && a.UserID == userUUID && a.IsActive)
        if count = 0 then .error .accountNotFoundOrAccessDenied else .ok ()

/-! ## Identifier generator (`utils/auth.go`) -/

/-- A Go `byte`. -/
abbrev Byte := Fin 256

/-- The digit table of `encoding/hex`. -/
def hextable : List Char := "0123456789abcdef".toList

/-- The digit `hextable[n]`. -/
def hexDigit (n : Nat) : Char := hextable.getD n '0'

/-- The characters of `hex.EncodeToString(bytes)`: for every byte `v` the two
digits `hextable[v>>4]` and `hextable[v&0x0f]`. -/
def hexChars (bytes : List Byte) : List Char :=
  bytes.flatMap (fun v => [hexDigit (v.val / 16), hexDigit (v.val % 16)])

/-- `hex.EncodeToString`. -/
def EncodeToString (bytes : List Byte) : String := String.mk (hexChars bytes)

/-- `bytes := make([]byte, n); rand.Read(bytes)`: the first `n` bytes the
random source `src` delivers. -/
def randRead (src : Nat → Byte) (n : Nat) : List Byte := (List.range n).map src

/-- `utils.GenerateAccountNumber`; `hexString[:12]` keeps the first twelve
characters. -/
def GenerateAccountNumber (src : Nat → Byte) : String :=
  let bytes := randRead src 8
  let hexString := EncodeToString bytes
  String.mk (hexString.data.take 12)

/-- `utils.GenerateTransactionID`. -/
def GenerateTransactionID (src : Nat → Byte) : String :=
  let bytes := randRead src 16
  EncodeToString bytes

/-! ## Totals -/

/-- The sum of the balances of all accounts. -/
def totalBalance (st : Store) : ℚ := (st.accounts.map (fun a => a.Balance)).sum

/-- The identifiers of the accounts a call names. -/
def Call.named (env : Env) : Call → List UUID
  | .deposit a _ _ => (env.parse a).toList
  | .withdraw a _ _ => (env.parse a).toList
  | .transfer a b _ _ => (env.parse a).toList ++ (env.parse b).toList

/-- The signed effect of a call on the sum of all balances: the amount of a
successful deposit, minus the amount of a successful withdrawal, and nothing
for a transfer or a failed call. -/
def signedEffect : Call → Except LedgerError Transaction → ℚ
  | .deposit _ amount _, .ok _ => amount
  | .withdraw _ amount _, .ok _ => -amount
  | _, _ => 0

/-! ## Sample data -/

/-- An environment in which `"A"` and `"B"` name the accounts 1 and 2, no
statement fails and the next identifier is 7. -/
def env0 : Env where
  parse := fun s => if s = "A" then some 1 else if s = "B" then some 2 else none
  newUUID := 7
  now := 1000
  fails := fun _ => false

/-- An active account with the given identifier and balance. -/
def mkAccount (id : UUID) (balance : ℚ) : Account :=
  { ID := id, AccountNumber := "", Type_ := .checking, Balance := balance,
    Currency := "USD", IsActive := true, UserID := 9 }

/-- A store with account 1 holding 100 and account 2 holding 10. -/
def st0 : Store := { accounts := [mkAccount 1 100, mkAccount 2 10], transactions := [] }

/-- A store in which account 2 is deactivated. -/
def stInactive : Store :=
  { accounts := [mkAccount 1 100, { mkAccount 2 10 with IsActive := false }],
    transactions := [] }

/-- The store `st0` after a deposit of 100 into account 1 in `env0`. -/
def stDeposited : Store :=
  { accounts := [mkAccount 1 200, mkAccount 2 10],
    transactions := [depositRecord env0 (mkAccount 1 100) 100 "pay"] }

/-- The environment `env0` in which `"T"` also parses, to the identifier 7. -/
def envT : Env := { env0 with parse := fun s => if s = "T" then some 7 else env0.parse s }

/-- A completed transfer of 1 from `src` to `dst` with the given keys and
creation time. -/
def mkTransfer (id : UUID) (key : String) (src dst : UUID) (createdAt : Nat) : Transaction :=
  { ID := id, TransactionID := key, Type_ := .transfer, Amount := 1, Currency := "USD",
    Status := .completed, Description := "", AccountID := src, ToAccountID := some dst,
    BalanceBefore := 1, BalanceAfter := 0, CreatedAt := createdAt }

/-- A store with three transfers: 1 to 2 at time 5, 2 to 1 at time 7 and 2 to 3
at time 6. -/
def stHistory : Store :=
  { accounts := [mkAccount 1 100, mkAccount 2 10],
    transactions := [mkTransfer 10 "k10" 1 2 5, mkTransfer 11 "k11" 2 1 7,
      mkTransfer 12 "k12" 2 3 6] }

/-- A store whose account 1 is active and owned by user 2. -/
def stOwned : Store :=
  { accounts := [{ mkAccount 1 100 with UserID := 2 }], transactions := [] }

/-- The environment `env0` with `n` as the next identifier: no statement
fails. -/
def envAt (n : UUID) : Env := { env0 with newUUID := n }

/-- A store whose only account is account 1, holding 50. -/
def stSingle : Store := { accounts := [mkAccount 1 50], transactions := [] }

/-! ## The insert and the status update -/

theorem any_clash_false (env : Env) (st : Store) (h : noClash env st) :
    st.transactions.any (fun r => r.ID == env.newUUID || r.TransactionID == "") = false := by
  rw [List.any_eq_false]
  intro r hr
  have := h r hr
  simp [this.1, this.2]

theorem any_clash_true (env : Env) (st : Store) (h : ¬ noClash env st) :
    st.transactions.any (fun r => r.ID == env.newUUID || r.TransactionID == "") = true := by
  rw [List.any_eq_true]
  unfold noClash at h
  push_neg at h
  obtain ⟨r, hr, hc⟩ := h
  refine ⟨r, hr, ?_⟩
  by_cases hid : r.ID = env.newUUID
  · simp [hid]
  · simp [hc hid]

theorem map_setStatus_old (env : Env) (st : Store) (h : noClash env st)
    (s : TransactionStatus) :
    st.transactions.map (setStatus env.newUUID s) = st.transactions := by
  conv_rhs => rw [← List.map_id st.transactions]
  apply List.map_congr_left
  intro r hr
  simp [setStatus, (h r hr).1]

/-! ## What each operation does when every step succeeds -/

theorem deposit_success (env : Env) (st : Store) (accountID : String) (amount : ℚ)
    (description : String) (account : Account)
    (hpos : 0 < amount)
    (hget : GetAccountByID env .findAccount st accountID = .ok account)
    (hclash : noClash env st)
    (hc : env.fails .create = false) (hu : env.fails .updateBalance = false)
    (hs : env.fails .updateStatus = false) (hm : env.fails .commit = false) :
    ProcessDeposit env st accountID amount description =
      (.ok (depositRecord env account amount description),
       { accounts := st.accounts.map (setBalance account.ID (account.Balance + amount)),
         transactions :=
           st.transactions ++ [depositRecord env account amount description] }) := by
  have h1 := any_clash_false env st hclash
  have h2 := map_setStatus_old env st hclash
  simp [ProcessDeposit, not_le.mpr hpos, hget, dbCreate, BeforeCreate, hc, hu, hs, hm,
    dbUpdateBalance, dbUpdateStatus, dbCommit, h1, h2, setStatus, depositRecord]

theorem withdraw_success (env : Env) (st : Store) (accountID : String) (amount : ℚ)
    (description : String) (account : Account)
    (hpos : 0 < amount)
    (hget : GetAccountByID env .findAccount st accountID = .ok account)
    (hbal : amount ≤ account.Balance)
    (hclash : noClash env st)
    (hc : env.fails .create = false) (hu : env.fails .updateBalance = false)
    (hs : env.fails .updateStatus = false) (hm : env.fails .commit = false) :
    ProcessWithdrawal env st accountID amount description =
      (.ok (withdrawRecord env account amount description),
       { accounts := st.accounts.map (setBalance account.ID (account.Balance - amount)),
         transactions :=
           st.transactions ++ [withdrawRecord env account amount description] }) := by
  have h1 := any_clash_false env st hclash
  have h2 := map_setStatus_old env st hclash
  simp [ProcessWithdrawal, not_le.mpr hpos, not_lt.mpr hbal, hget, dbCreate, BeforeCreate,
    hc, hu, hs, hm, dbUpdateBalance, dbUpdateStatus, dbCommit, h1, h2, setStatus,
    withdrawRecord]

theorem transfer_success (env : Env) (st : Store) (fromAccountID toAccountID : String)
    (amount : ℚ) (description : String) (fromAccount toAccount : Account)
    (hpos : 0 < amount)
    (hfrom : GetAccountByID env .findAccount st fromAccountID = .ok fromAccount)
    (hto : GetAccountByID env .findToAccount st toAccountID = .ok toAccount)
    (hne : fromAccount.ID ≠ toAccount.ID)
    (hbal : amount ≤ fromAccount.Balance)
    (hclash : noClash env st)
    (hc : env.fails .create = false) (hu : env.fails .updateBalance = false)
    (hv : env.fails .updateToBalance = false)
    (hs : env.fails .updateStatus = false) (hm : env.fails .commit = false) :
    ProcessTransfer env st fromAccountID toAccountID amount description =
      (.ok (transferRecord env fromAccount toAccount amount description),
       { accounts :=
           (st.accounts.map (setBalance fromAccount.ID (fromAccount.Balance - amount))).map
             (setBalance toAccount.ID (toAccount.Balance + amount)),
         transactions :=
           st.transactions ++
             [transferRecord env fromAccount toAccount amount description] }) := by
  have h1 := any_clash_false env st hclash
  have h2 := map_setStatus_old env st hclash
  simp [ProcessTransfer, not_le.mpr hpos, not_lt.mpr hbal, hfrom, hto, hne, dbCreate,
    BeforeCreate, hc, hu, hv, hs, hm, dbUpdateBalance, dbUpdateStatus, dbCommit, h1, h2,
    setStatus, transferRecord]

/-! ## Every call either fails, leaving the store alone, or runs to the end -/

theorem deposit_cases (env : Env) (st : Store) (accountID : String) (amount : ℚ)
    (description : String) :
    (∃ e, ProcessDeposit env st accountID amount description = (.error e, st)) ∨
    (∃ account, 0 < amount ∧
      GetAccountByID env .findAccount st accountID = .ok account ∧ noClash env st ∧
      env.fails .create = false ∧ env.fails .updateBalance = false ∧
      env.fails .updateStatus = false ∧ env.fails .commit = false ∧
      ProcessDeposit env st accountID amount description =
        (.ok (depositRecord env account amount description),
         { accounts := st.accounts.map (setBalance account.ID (account.Balance + amount)),
           transactions :=
             st.transactions ++ [depositRecord env account amount description] })) := by
  by_cases hpos : amount ≤ 0
  · left; simp [ProcessDeposit, hpos]
  cases hget : GetAccountByID env .findAccount st accountID with
  | error e => left; simp [ProcessDeposit, hpos, hget]
  | ok account =>
    cases hc : env.fails .create with
    | true => left; simp [ProcessDeposit, hpos, hget, dbCreate, hc]
    | false =>
      by_cases hclash : noClash env st
      swap
      · left
        have h1 := any_clash_true env st hclash
        simp [ProcessDeposit, hpos, hget, dbCreate, hc, BeforeCreate, h1]
      cases hu : env.fails .updateBalance with
      | true =>
        left
        have h1 := any_clash_false env st hclash
        simp [ProcessDeposit, hpos, hget, dbCreate, hc, BeforeCreate, h1, dbUpdateBalance, hu]
      | false =>
        cases hs : env.fails .updateStatus with
        | true =>
          left
          have h1 := any_clash_false env st hclash
          simp [ProcessDeposit, hpos, hget, dbCreate, hc, BeforeCreate, h1, dbUpdateBalance,
            hu, dbUpdateStatus, hs]
        | false =>
          cases hm : env.fails .commit with
          | true =>
            left
            have h1 := any_clash_false env st hclash
            simp [ProcessDeposit, hpos, hget, dbCreate, hc, BeforeCreate, h1, dbUpdateBalance,
              hu, dbUpdateStatus, hs, dbCommit, hm]
          | false =>
            right
            exact ⟨account, not_le.mp hpos, rfl, hclash, rfl, rfl, rfl, rfl,
              deposit_success env st accountID amount description account (not_le.mp hpos)
                hget hclash hc hu hs hm⟩

theorem withdraw_cases (env : Env) (st : Store) (accountID : String) (amount : ℚ)
    (description : String) :
    (∃ e, ProcessWithdrawal env st accountID amount description = (.error e, st)) ∨
    (∃ account, 0 < amount ∧
      GetAccountByID env .findAccount st accountID = .ok account ∧
      amount ≤ account.Balance ∧ noClash env st ∧
      env.fails .create = false ∧ env.fails .updateBalance = false ∧
      env.fails .updateStatus = false ∧ env.fails .commit = false ∧
      ProcessWithdrawal env st accountID amount description =
        (.ok (withdrawRecord env account amount description),
         { accounts := st.accounts.map (setBalance account.ID (account.Balance - amount)),
           transactions :=
             st.transactions ++ [withdrawRecord env account amount description] })) := by
  by_cases hpos : amount ≤ 0
  · left; simp [ProcessWithdrawal, hpos]
  cases hget : GetAccountByID env .findAccount st accountID with
  | error e => left; simp [ProcessWithdrawal, hpos, hget]
  | ok account =>
    by_cases hbal : account.Balance < amount
    · left; simp [ProcessWithdrawal, hpos, hget, hbal]
    cases hc : env.fails .create with
    | true => left; simp [ProcessWithdrawal, hpos, hget, hbal, dbCreate, hc]
    | false =>
      by_cases hclash : noClash env st
      swap
      · left
        have h1 := any_clash_true env st hclash
        simp [ProcessWithdrawal, hpos, hget, hbal, dbCreate, hc, BeforeCreate, h1]
      have h1 := any_clash_false env st hclash
      cases hu : env.fails .updateBalance with
      | true =>
        left
        simp [ProcessWithdrawal, hpos, hget, hbal, dbCreate, hc, BeforeCreate, h1,
          dbUpdateBalance, hu]
      | false =>
        cases hs : env.fails .updateStatus with
        | true =>
          left
          simp [ProcessWithdrawal, hpos, hget, hbal, dbCreate, hc, BeforeCreate, h1,
            dbUpdateBalance, hu, dbUpdateStatus, hs]
        | false =>
          cases hm : env.fails .commit with
          | true =>
            left
            simp [ProcessWithdrawal, hpos, hget, hbal, dbCreate, hc, BeforeCreate, h1,
              dbUpdateBalance, hu, dbUpdateStatus, hs, dbCommit, hm]
          | false =>
            right
            exact ⟨account, not_le.mp hpos, rfl, not_lt.mp hbal, hclash, rfl, rfl, rfl, rfl,
              withdraw_success env st accountID amount description account (not_le.mp hpos)
                hget (not_lt.mp hbal) hclash hc hu hs hm⟩

theorem transfer_cases (env : Env) (st : Store) (fromAccountID toAccountID : String)
    (amount : ℚ) (description : String) :
    (∃ e, ProcessTransfer env st fromAccountID toAccountID amount description =
      (.error e, st)) ∨
    (∃ fromAccount toAccount, 0 < amount ∧
      GetAccountByID env .findAccount st fromAccountID = .ok fromAccount ∧
      GetAccountByID env .findToAccount st toAccountID = .ok toAccount ∧
      fromAccount.ID ≠ toAccount.ID ∧
      amount ≤ fromAccount.Balance ∧ noClash env st ∧
      env.fails .create = false ∧ env.fails .updateBalance = false ∧
      env.fails .updateToBalance = false ∧
      env.fails .updateStatus = false ∧ env.fails .commit = false ∧
      ProcessTransfer env st fromAccountID toAccountID amount description =
        (.ok (transferRecord env fromAccount toAccount amount description),
         { accounts :=
             (st.accounts.map
               (setBalance fromAccount.ID (fromAccount.Balance - amount))).map
               (setBalance toAccount.ID (toAccount.Balance + amount)),
           transactions :=
             st.transactions ++
               [transferRecord env fromAccount toAccount amount description] })) := by
  by_cases hpos : amount ≤ 0
  · left; simp [ProcessTransfer, hpos]
  cases hfrom : GetAccountByID env .findAccount st fromAccountID with
  | error e => left; simp [ProcessTransfer, hpos, hfrom]
  | ok fromAccount =>
    cases hto : GetAccountByID env .findToAccount st toAccountID with
    | error e => left; simp [ProcessTransfer, hpos, hfrom, hto]
    | ok toAccount =>
      by_cases hne : fromAccount.ID = toAccount.ID
      · left; simp [ProcessTransfer, hpos, hfrom, hto, hne]
      by_cases hbal : fromAccount.Balance < amount
      · left; simp [ProcessTransfer, hpos, hfrom, hto, hne, hbal]
      cases hc : env.fails .create with
      | true => left; simp [ProcessTransfer, hpos, hfrom, hto, hne, hbal, dbCreate, hc]
      | false =>
        by_cases hclash : noClash env st
        swap
        · left
          have h1 := any_clash_true env st hclash
          simp [ProcessTransfer, hpos, hfrom, hto, hne, hbal, dbCreate, hc, BeforeCreate, h1]
        have h1 := any_clash_false env st hclash
        cases hu : env.fails .updateBalance with
        | true =>
          left
          simp [ProcessTransfer, hpos, hfrom, hto, hne, hbal, dbCreate, hc, BeforeCreate, h1,
            dbUpdateBalance, hu]
        | false =>
          cases hv : env.fails .updateToBalance with
          | true =>
            left
            simp [ProcessTransfer, hpos, hfrom, hto, hne, hbal, dbCreate, hc, BeforeCreate,
              h1, dbUpdateBalance, hu, hv]
          | false =>
            cases hs : env.fails .updateStatus with
            | true =>
              left
              simp [ProcessTransfer, hpos, hfrom, hto, hne, hbal, dbCreate, hc, BeforeCreate,
                h1, dbUpdateBalance, hu, hv, dbUpdateStatus, hs]
            | false =>
              cases hm : env.fails .commit with
              | true =>
                left
                simp [ProcessTransfer, hpos, hfrom, hto, hne, hbal, dbCreate, hc,
                  BeforeCreate, h1, dbUpdateBalance, hu, hv, dbUpdateStatus, hs, dbCommit, hm]
              | false =>
                right
                exact ⟨fromAccount, toAccount, not_le.mp hpos, rfl, rfl, hne, not_lt.mp hbal,
                  hclash, rfl, rfl, rfl, rfl, rfl,
                  transfer_success env st fromAccountID toAccountID amount description
                    fromAccount toAccount (not_le.mp hpos) hfrom hto hne (not_lt.mp hbal)
                    hclash hc hu hv hs hm⟩

/-! ## Looking accounts up -/

theorem GetAccountByID_ok (env : Env) (step : Step) (st : Store) (accountID : String)
    (id : UUID) (account : Account) (hp : env.parse accountID = some id)
    (hf : env.fails step = false) (ha : firstActiveAccount st id = some account) :
    GetAccountByID env step st accountID = .ok account := by
  simp [GetAccountByID, hp, hf, ha]

theorem GetAccountByID_mem (env : Env) (step : Step) (st : Store) (accountID : String)
    (account : Account) (h : GetAccountByID env step st accountID = .ok account) :
    account ∈ st.accounts := by
  unfold GetAccountByID at h
  split at h
  · simp at h
  · split at h
    · simp at h
    · split at h
      · simp at h
      · rename_i a ha
        simp only [Except.ok.injEq] at h
        subst h
        exact List.mem_of_find?_eq_some ha

theorem firstActiveAccount_id (st : Store) (id : UUID) (account : Account)
    (h : firstActiveAccount st id = some account) : account.ID = id := by
  have := List.find?_some h
  simp at this
  exact this.1

theorem find_map_setBalance (l : List Account) (id k : UUID) (b : ℚ) :
    (l.map (setBalance k b)).find? (fun a => a.ID == id && a.IsActive) =
      (l.find? (fun a => a.ID == id && a.IsActive)).map (setBalance k b) := by
  induction l with
  | nil => rfl
  | cons a l ih =>
    have h1 : (setBalance k b a).ID = a.ID := by unfold setBalance; split <;> rfl
    have h2 : (setBalance k b a).IsActive = a.IsActive := by unfold setBalance; split <;> rfl
    simp only [List.map_cons, List.find?_cons, h1, h2]
    split
    · rfl
    · exact ih

/-! ## The claims -/

theorem setBalance_nonneg (id : UUID) (b : ℚ) (a : Account) (hb : 0 ≤ b)
    (ha : 0 ≤ a.Balance) : 0 ≤ (setBalance id b a).Balance := by
  unfold setBalance
  split
  · exact hb
  · exact ha

theorem map_setBalance_nonneg (l : List Account) (id : UUID) (b : ℚ) (hb : 0 ≤ b)
    (h : ∀ a ∈ l, 0 ≤ a.Balance) : ∀ a ∈ l.map (setBalance id b), 0 ≤ a.Balance := by
  intro a ha
  obtain ⟨a0, ha0, rfl⟩ := List.mem_map.mp ha
  exact setBalance_nonneg id b a0 hb (h a0 ha0)

/-- C1: if every account balance of a store is non-negative, then after any
call of Deposit, Withdraw or Transfer, with any arguments and whether it
succeeds or fails, every account balance is still non-negative. -/
theorem balances_nonneg_preserved (env : Env) (st : Store) (call : Call)
    (h : ∀ a ∈ st.accounts, 0 ≤ a.Balance) :
    ∀ a ∈ (call.run env st).2.accounts, 0 ≤ a.Balance := by
  cases call with
  | deposit accountID amount description =>
    rcases deposit_cases env st accountID amount description with ⟨e, he⟩ |
      ⟨account, hpos, hget, -, -, -, -, -, hrun⟩
    · simpa [Call.run, he] using h
    · have hacc := h account (GetAccountByID_mem env _ st accountID account hget)
      simp only [Call.run, hrun]
      exact map_setBalance_nonneg _ _ _ (by linarith) h
  | withdraw accountID amount description =>
    rcases withdraw_cases env st accountID amount description with ⟨e, he⟩ |
      ⟨account, hpos, hget, hbal, -, -, -, -, -, hrun⟩
    · simpa [Call.run, he] using h
    · simp only [Call.run, hrun]
      exact map_setBalance_nonneg _ _ _ (by linarith) h
  | transfer fromAccountID toAccountID amount description =>
    rcases transfer_cases env st fromAccountID toAccountID amount description with ⟨e, he⟩ |
      ⟨fromAccount, toAccount, hpos, hfrom, hto, hne, hbal, -, -, -, -, -, -, hrun⟩
    · simpa [Call.run, he] using h
    · have hacc := h toAccount (GetAccountByID_mem env _ st toAccountID toAccount hto)
      simp only [Call.run, hrun]
      exact map_setBalance_nonneg _ _ _ (by linarith)
        (map_setBalance_nonneg _ _ _ (by linarith) h)

/-- C1 at a concrete input: withdrawing the whole balance of account 1. -/
theorem balances_nonneg_preserved_witness :
    (∀ a ∈ st0.accounts, 0 ≤ a.Balance) ∧
      ∀ a ∈ ((Call.withdraw "A" 100 "all").run env0 st0).2.accounts, 0 ≤ a.Balance :=
  ⟨by simp [st0, mkAccount],
    balances_nonneg_preserved env0 st0 (Call.withdraw "A" 100 "all")
      (by simp [st0, mkAccount])⟩

/-- C2: a transfer of `amount` between two distinct active accounts `A` and
`B`, with `0 < amount ≤ A.Balance` and no failing store step (no statement
fails and the inserted row clashes with no existing one), returns a completed
transfer record from `A` to `B` with the given amount and description,
`BalanceBefore = A.Balance` and `BalanceAfter = A.Balance - amount`; afterwards
`A` holds `A.Balance - amount`, `B` holds `B.Balance + amount`, and exactly the
returned record has been added to the transactions. -/
theorem transfer_postcondition (env : Env) (st : Store) (fromAccountID toAccountID : String)
    (amount : ℚ) (description : String) (A B : Account)
    (hpA : env.parse fromAccountID = some A.ID) (hpB : env.parse toAccountID = some B.ID)
    (hA : firstActiveAccount st A.ID = some A) (hB : firstActiveAccount st B.ID = some B)
    (hne : A.ID ≠ B.ID) (hpos : 0 < amount) (hbal : amount ≤ A.Balance)
    (hfail : ∀ s, env.fails s = false) (hclash : noClash env st) :
    ∃ t st', ProcessTransfer env st fromAccountID toAccountID amount description = (.ok t, st') ∧
      t.Type_ = .transfer ∧ t.Status = .completed ∧ t.AccountID = A.ID ∧
      t.ToAccountID = some B.ID ∧ t.Amount = amount ∧ t.Description = description ∧
      t.BalanceBefore = A.Balance ∧ t.BalanceAfter = A.Balance - amount ∧
      firstActiveAccount st' A.ID = some { A with Balance := A.Balance - amount } ∧
      firstActiveAccount st' B.ID = some { B with Balance := B.Balance + amount } ∧
      st'.transactions = st.transactions ++ [t] := by
  have hfrom := GetAccountByID_ok env .findAccount st fromAccountID A.ID A hpA (hfail _) hA
  have hto := GetAccountByID_ok env .findToAccount st toAccountID B.ID B hpB (hfail _) hB
  refine ⟨_, _, transfer_success env st fromAccountID toAccountID amount description A B hpos
    hfrom hto hne hbal hclash (hfail _) (hfail _) (hfail _) (hfail _) (hfail _),
    rfl, rfl, rfl, rfl, rfl, rfl, rfl, rfl, ?_, ?_, rfl⟩
  · unfold firstActiveAccount at hA ⊢
    simp only [find_map_setBalance, hA, Option.map_some']
    simp [setBalance, hne]
  · unfold firstActiveAccount at hB ⊢
    simp only [find_map_setBalance, hB, Option.map_some']
    simp [setBalance, hne.symm]

/-- C2 at the scenario of the specification: 30 from A (100) to B (10). -/
theorem transfer_postcondition_witness :
    ∃ t st', ProcessTransfer env0 st0 "A" "B" 30 "rent" = (.ok t, st') ∧
      t.Type_ = .transfer ∧ t.Status = .completed ∧ t.AccountID = 1 ∧
      t.ToAccountID = some 2 ∧ t.Amount = 30 ∧ t.Description = "rent" ∧
      t.BalanceBefore = 100 ∧ t.BalanceAfter = 70 ∧
      firstActiveAccount st' 1 = some (mkAccount 1 70) ∧
      firstActiveAccount st' 2 = some (mkAccount 2 40) ∧
      st'.transactions = st0.transactions ++ [t] := by
  have h := transfer_postcondition env0 st0 "A" "B" 30 "rent" (mkAccount 1 100)
    (mkAccount 2 10) rfl rfl rfl rfl (by decide) (by norm_num) (by norm_num [mkAccount])
    (fun _ => rfl) (by simp [noClash, st0])
  norm_num [mkAccount] at h ⊢
  exact h

/-- C3: for an active account `A` whose balance is below a positive `amount`,
a withdrawal fails with `insufficient balance`, whatever else the store holds;
and so does a transfer from `A` to any other active account `B`.  In both
cases the store (every account and every transaction record) is exactly as
before the call.  The identifiers are well-formed and the account lookups
themselves succeed; nothing is assumed about the write steps, which are never
reached. -/
theorem insufficient_funds_refused (env : Env) (st : Store) (accountID : String)
    (amount : ℚ) (description : String) (A : Account)
    (hpA : env.parse accountID = some A.ID) (hfA : env.fails .findAccount = false)
    (hA : firstActiveAccount st A.ID = some A)
    (hpos : 0 < amount) (hbal : A.Balance < amount) :
    ProcessWithdrawal env st accountID amount description =
        (.error .insufficientBalance, st) ∧
      ∀ (toAccountID : String) (B : Account), env.parse toAccountID = some B.ID →
        env.fails .findToAccount = false → firstActiveAccount st B.ID = some B →
        A.ID ≠ B.ID →
        ProcessTransfer env st accountID toAccountID amount description =
          (.error .insufficientBalance, st) := by
  have hfrom := GetAccountByID_ok env .findAccount st accountID A.ID A hpA hfA hA
  constructor
  · simp [ProcessWithdrawal, not_le.mpr hpos, hfrom, hbal]
  · intro toAccountID B hpB hfB hB hne
    have hto := GetAccountByID_ok env .findToAccount st toAccountID B.ID B hpB hfB hB
    simp [ProcessTransfer, not_le.mpr hpos, hfrom, hto, hne, hbal]

/-- C3 at concrete inputs: 150 from the only account of a store, which holds
50; and 150 from account 2 of `st0`, which holds 10, withdrawn or transferred
to account 1. -/
theorem insufficient_funds_refused_witness :
    ProcessWithdrawal env0 stSingle "A" 150 "cash" = (.error .insufficientBalance, stSingle) ∧
      firstActiveAccount stSingle 1 = some (mkAccount 1 50) ∧
      ProcessWithdrawal env0 st0 "B" 150 "cash" = (.error .insufficientBalance, st0) ∧
      ProcessTransfer env0 st0 "B" "A" 150 "cash" = (.error .insufficientBalance, st0) :=
  ⟨(insufficient_funds_refused env0 stSingle "A" 150 "cash" (mkAccount 1 50) rfl rfl rfl
      (by norm_num) (by norm_num [mkAccount])).1,
    rfl,
    (insufficient_funds_refused env0 st0 "B" 150 "cash" (mkAccount 2 10) rfl rfl rfl
      (by norm_num) (by norm_num [mkAccount])).1,
    (insufficient_funds_refused env0 st0 "B" 150 "cash" (mkAccount 2 10) rfl rfl rfl
      (by norm_num) (by norm_num [mkAccount])).2 "A" (mkAccount 1 100) rfl rfl rfl
      (by decide)⟩

/-- C4: a withdrawal of `amount` from an active account `A` with
`0 < amount ≤ A.Balance` (the whole balance included) and no failing store step
returns a completed withdraw record of `A` without destination, with the
given amount and description, `BalanceBefore = A.Balance` and
`BalanceAfter = A.Balance - amount`; afterwards `A` holds `A.Balance - amount`. -/
theorem withdraw_postcondition (env : Env) (st : Store) (accountID : String) (amount : ℚ)
    (description : String) (A : Account)
    (hpA : env.parse accountID = some A.ID)
    (hA : firstActiveAccount st A.ID = some A)
    (hpos : 0 < amount) (hbal : amount ≤ A.Balance)
    (hfail : ∀ s, env.fails s = false) (hclash : noClash env st) :
    ∃ t st', ProcessWithdrawal env st accountID amount description = (.ok t, st') ∧
      t.Type_ = .withdraw ∧ t.Status = .completed ∧ t.AccountID = A.ID ∧
      t.ToAccountID = none ∧ t.Amount = amount ∧ t.Description = description ∧
      t.BalanceBefore = A.Balance ∧ t.BalanceAfter = A.Balance - amount ∧
      firstActiveAccount st' A.ID = some { A with Balance := A.Balance - amount } ∧
      st'.transactions = st.transactions ++ [t] := by
  have hget := GetAccountByID_ok env .findAccount st accountID A.ID A hpA (hfail _) hA
  refine ⟨_, _, withdraw_success env st accountID amount description A hpos hget hbal hclash
    (hfail _) (hfail _) (hfail _) (hfail _), rfl, rfl, rfl, rfl, rfl, rfl, rfl, rfl, ?_, rfl⟩
  unfold firstActiveAccount at hA ⊢
  simp only [find_map_setBalance, hA, Option.map_some']
  simp [setBalance]

/-- C4 at the scenario of the specification: 50 from a balance of 100. -/
theorem withdraw_postcondition_witness :
    ∃ t st', ProcessWithdrawal env0 st0 "A" 50 "cash" = (.ok t, st') ∧
      t.Type_ = .withdraw ∧ t.Status = .completed ∧ t.AccountID = 1 ∧
      t.ToAccountID = none ∧ t.Amount = 50 ∧ t.Description = "cash" ∧
      t.BalanceBefore = 100 ∧ t.BalanceAfter = 50 ∧
      firstActiveAccount st' 1 = some (mkAccount 1 50) ∧
      st'.transactions = st0.transactions ++ [t] := by
  have h := withdraw_postcondition env0 st0 "A" 50 "cash" (mkAccount 1 100) rfl rfl
    (by norm_num) (by norm_num [mkAccount]) (fun _ => rfl) (by simp [noClash, st0])
  norm_num [mkAccount] at h ⊢
  exact h

/-- C5: a deposit of `amount > 0` into an active account `A` (whose currency
is an ISO code, hence not the empty string) with no failing store step returns
a completed deposit record of `A` in `A`'s currency, with the given amount and
description, `BalanceBefore = A.Balance` and `BalanceAfter = A.Balance + amount`;
afterwards `A` holds `A.Balance + amount`. -/
theorem deposit_postcondition (env : Env) (st : Store) (accountID : String) (amount : ℚ)
    (description : String) (A : Account)
    (hpA : env.parse accountID = some A.ID)
    (hA : firstActiveAccount st A.ID = some A)
    (hcur : A.Currency ≠ "")
    (hpos : 0 < amount)
    (hfail : ∀ s, env.fails s = false) (hclash : noClash env st) :
    ∃ t st', ProcessDeposit env st accountID amount description = (.ok t, st') ∧
      t.Type_ = .deposit ∧ t.Status = .completed ∧ t.AccountID = A.ID ∧
      t.Currency = A.Currency ∧ t.Amount = amount ∧ t.Description = description ∧
      t.BalanceBefore = A.Balance ∧ t.BalanceAfter = A.Balance + amount ∧
      firstActiveAccount st' A.ID = some { A with Balance := A.Balance + amount } ∧
      st'.transactions = st.transactions ++ [t] := by
  have hget := GetAccountByID_ok env .findAccount st accountID A.ID A hpA (hfail _) hA
  refine ⟨_, _, deposit_success env st accountID amount description A hpos hget hclash
    (hfail _) (hfail _) (hfail _) (hfail _), rfl, rfl, rfl, ?_, rfl, rfl, rfl, rfl, ?_, rfl⟩
  · simp [depositRecord, defaultCurrency, hcur]
  · unfold firstActiveAccount at hA ⊢
    simp only [find_map_setBalance, hA, Option.map_some']
    simp [setBalance]

/-- C5 at the scenario of the specification: 100 into a USD account holding 0. -/
theorem deposit_postcondition_witness :
    ∃ t st', ProcessDeposit env0 { st0 with accounts := [mkAccount 1 0] } "A" 100 "pay" =
        (.ok t, st') ∧
      t.Type_ = .deposit ∧ t.Status = .completed ∧ t.AccountID = 1 ∧
      t.Currency = "USD" ∧ t.Amount = 100 ∧ t.Description = "pay" ∧
      t.BalanceBefore = 0 ∧ t.BalanceAfter = 100 ∧
      firstActiveAccount st' 1 = some (mkAccount 1 100) ∧
      st'.transactions = [t] := by
  have h := deposit_postcondition env0 { st0 with accounts := [mkAccount 1 0] } "A" 100 "pay"
    (mkAccount 1 0) rfl rfl (by decide) (by norm_num) (fun _ => rfl) (by simp [noClash, st0])
  norm_num [mkAccount, st0] at h ⊢
  exact h

/-- C6: if any step of the atomic unit of a transfer fails (the insert, by a
failing statement or by a clash with an existing row, the update of the
source balance, the update of the destination balance, the status update or
the commit), the call returns an error and the store is exactly the store
before the call: both balances are unchanged and no transaction record of the
call exists. -/
theorem transfer_all_or_nothing (env : Env) (st : Store) (fromAccountID toAccountID : String)
    (amount : ℚ) (description : String)
    (h : env.fails .create = true ∨ ¬ noClash env st ∨ env.fails .updateBalance = true ∨
      env.fails .updateToBalance = true ∨ env.fails .updateStatus = true ∨
      env.fails .commit = true) :
    ∃ e, ProcessTransfer env st fromAccountID toAccountID amount description =
      (.error e, st) := by
  rcases transfer_cases env st fromAccountID toAccountID amount description with he |
    ⟨_, _, _, _, _, _, _, hclash, hc, hu, hv, hs, hm, _⟩
  · exact he
  · rcases h with h | h | h | h | h | h
    · simp [hc] at h
    · exact absurd hclash h
    · simp [hu] at h
    · simp [hv] at h
    · simp [hs] at h
    · simp [hm] at h

/-- C6 at a concrete input: the commit of a transfer of 30 fails. -/
theorem transfer_all_or_nothing_witness :
    ∃ e, ProcessTransfer { env0 with fails := fun s => s == .commit } st0 "A" "B" 30 "rent" =
      (.error e, st0) :=
  transfer_all_or_nothing { env0 with fails := fun s => s == .commit } st0 "A" "B" 30 "rent"
    (Or.inr (Or.inr (Or.inr (Or.inr (Or.inr rfl)))))

/-- C7: a transfer whose source and destination name the same active account
fails with `cannot transfer to the same account`, whatever the positive amount
and the balance, and leaves the store unchanged.  The two identifiers may be
different spellings of the same id; the account lookups themselves succeed. -/
theorem same_account_transfer_rejected (env : Env) (st : Store)
    (fromAccountID toAccountID : String) (amount : ℚ) (description : String) (A : Account)
    (hpF : env.parse fromAccountID = some A.ID) (hpT : env.parse toAccountID = some A.ID)
    (hfA : env.fails .findAccount = false) (hfB : env.fails .findToAccount = false)
    (hA : firstActiveAccount st A.ID = some A) (hpos : 0 < amount) :
    ProcessTransfer env st fromAccountID toAccountID amount description =
      (.error .sameAccountTransfer, st) := by
  have hfrom := GetAccountByID_ok env .findAccount st fromAccountID A.ID A hpF hfA hA
  have hto := GetAccountByID_ok env .findToAccount st toAccountID A.ID A hpT hfB hA
  simp [ProcessTransfer, not_le.mpr hpos, hfrom, hto]

/-- C7 at a concrete input: 30 from account 1 to itself. -/
theorem same_account_transfer_rejected_witness :
    ProcessTransfer env0 st0 "A" "A" 30 "self" = (.error .sameAccountTransfer, st0) :=
  same_account_transfer_rejected env0 st0 "A" "A" 30 "self" (mkAccount 1 100)
    rfl rfl rfl rfl rfl (by norm_num)

/-- C8: for an amount that is zero or negative, and any account identifiers,
Deposit, Withdraw and Transfer each fail with the error whose message is
`amount must be greater than zero` and leave the store unchanged. -/
theorem nonpositive_amount_rejected (env : Env) (st : Store)
    (accountID toAccountID : String) (amount : ℚ) (description : String)
    (h : amount ≤ 0) :
    ProcessDeposit env st accountID amount description = (.error .invalidAmount, st) ∧
      ProcessWithdrawal env st accountID amount description = (.error .invalidAmount, st) ∧
      ProcessTransfer env st accountID toAccountID amount description =
        (.error .invalidAmount, st) ∧
      LedgerError.invalidAmount.message = "amount must be greater than zero" := by
  simp [ProcessDeposit, ProcessWithdrawal, ProcessTransfer, h, LedgerError.message]

/-- C8 at a concrete input: the amount 0 and an identifier that does not parse. -/
theorem nonpositive_amount_rejected_witness :
    ProcessDeposit env0 st0 "?" 0 "" = (.error .invalidAmount, st0) ∧
      ProcessWithdrawal env0 st0 "?" 0 "" = (.error .invalidAmount, st0) ∧
      ProcessTransfer env0 st0 "?" "B" 0 "" = (.error .invalidAmount, st0) ∧
      LedgerError.invalidAmount.message = "amount must be greater than zero" :=
  nonpositive_amount_rejected env0 st0 "?" "B" 0 "" (le_refl 0)

theorem firstActiveAccount_none (st : Store) (id : UUID)
    (h : ∀ a ∈ st.accounts, a.ID = id → a.IsActive = false) :
    firstActiveAccount st id = none := by
  unfold firstActiveAccount
  rw [List.find?_eq_none]
  intro a ha
  by_cases hid : a.ID = id
  · simp [h a ha hid]
  · simp [hid]

theorem GetAccountByID_notFound (env : Env) (step : Step) (st : Store) (accountID : String)
    (id : UUID) (hp : env.parse accountID = some id) (hf : env.fails step = false)
    (h : ∀ a ∈ st.accounts, a.ID = id → a.IsActive = false) :
    GetAccountByID env step st accountID = .error .accountNotFound := by
  simp [GetAccountByID, hp, hf, firstActiveAccount_none st id h]

/-- C9: let `accountID` be a well-formed identifier that names no account or
only a deactivated one, and `amount > 0`.  Then Deposit and Withdraw on it
fail with `account not found`, and so does Transfer with it as source (to any
destination) and with it as destination (from any well-formed source); the
store, the deactivated account included, is unchanged in every case.  The
account queries themselves return no database error. -/
theorem missing_account_excluded (env : Env) (st : Store) (accountID : String) (id : UUID)
    (amount : ℚ) (description : String)
    (hp : env.parse accountID = some id)
    (hfA : env.fails .findAccount = false) (hfB : env.fails .findToAccount = false)
    (hgone : ∀ a ∈ st.accounts, a.ID = id → a.IsActive = false)
    (hpos : 0 < amount) :
    ProcessDeposit env st accountID amount description = (.error .accountNotFound, st) ∧
      ProcessWithdrawal env st accountID amount description =
        (.error .accountNotFound, st) ∧
      (∀ other, ProcessTransfer env st accountID other amount description =
        (.error .accountNotFound, st)) ∧
      (∀ other, env.parse other ≠ none →
        ProcessTransfer env st other accountID amount description =
          (.error .accountNotFound, st)) := by
  have hA := GetAccountByID_notFound env .findAccount st accountID id hp hfA hgone
  have hB := GetAccountByID_notFound env .findToAccount st accountID id hp hfB hgone
  refine ⟨?_, ?_, ?_, ?_⟩
  · simp [ProcessDeposit, not_le.mpr hpos, hA]
  · simp [ProcessWithdrawal, not_le.mpr hpos, hA]
  · intro other
    simp [ProcessTransfer, not_le.mpr hpos, hA]
  · intro other hother
    obtain ⟨oid, hoid⟩ := Option.ne_none_iff_exists'.mp hother
    cases hsrc : firstActiveAccount st oid with
    | none =>
      simp [ProcessTransfer, not_le.mpr hpos, GetAccountByID, hoid, hfA, hsrc]
    | some src =>
      simp [ProcessTransfer, not_le.mpr hpos, GetAccountByID_ok env .findAccount st other oid
        src hoid hfA hsrc, hB]

/-- C9 at a concrete input: account 2 is deactivated. -/
theorem missing_account_excluded_witness :
    ProcessDeposit env0 stInactive "B" 5 "x" = (.error .accountNotFound, stInactive) ∧
      ProcessWithdrawal env0 stInactive "B" 5 "x" = (.error .accountNotFound, stInactive) ∧
      (∀ other, ProcessTransfer env0 stInactive "B" other 5 "x" =
        (.error .accountNotFound, stInactive)) ∧
      (∀ other, env0.parse other ≠ none →
        ProcessTransfer env0 stInactive other "B" 5 "x" =
          (.error .accountNotFound, stInactive)) :=
  missing_account_excluded env0 stInactive "B" 2 5 "x" rfl rfl rfl
    (by simp [stInactive, mkAccount]) (by norm_num)

theorem call_preserves_audit (env : Env) (st : Store) (call : Call)
    (h : ∀ t ∈ st.transactions, t.Status = .completed → auditOK t) :
    ∀ t ∈ (call.run env st).2.transactions, t.Status = .completed → auditOK t := by
  cases call with
  | deposit accountID amount description =>
    rcases deposit_cases env st accountID amount description with ⟨e, he⟩ |
      ⟨account, hpos, -, -, -, -, -, -, hrun⟩
    · simpa [Call.run, he] using h
    · simp only [Call.run, hrun]
      intro t ht hs
      rcases List.mem_append.mp ht with ht | ht
      · exact h t ht hs
      · rw [List.mem_singleton] at ht
        subst ht
        exact ⟨hpos, rfl⟩
  | withdraw accountID amount description =>
    rcases withdraw_cases env st accountID amount description with ⟨e, he⟩ |
      ⟨account, hpos, -, -, -, -, -, -, -, hrun⟩
    · simpa [Call.run, he] using h
    · simp only [Call.run, hrun]
      intro t ht hs
      rcases List.mem_append.mp ht with ht | ht
      · exact h t ht hs
      · rw [List.mem_singleton] at ht
        subst ht
        exact ⟨hpos, rfl⟩
  | transfer fromAccountID toAccountID amount description =>
    rcases transfer_cases env st fromAccountID toAccountID amount description with ⟨e, he⟩ |
      ⟨fromAccount, toAccount, hpos, -, -, -, -, -, -, -, -, -, -, hrun⟩
    · simpa [Call.run, he] using h
    · simp only [Call.run, hrun]
      intro t ht hs
      rcases List.mem_append.mp ht with ht | ht
      · exact h t ht hs
      · rw [List.mem_singleton] at ht
        subst ht
        exact ⟨hpos, rfl⟩

theorem runCalls_preserves_audit (calls : List (Env × Call)) :
    ∀ st : Store, (∀ t ∈ st.transactions, t.Status = .completed → auditOK t) →
      ∀ t ∈ (runCalls st calls).transactions, t.Status = .completed → auditOK t := by
  induction calls with
  | nil => intro st h; simpa [runCalls] using h
  | cons c cs ih =>
    intro st h
    simp only [runCalls, List.foldl_cons]
    exact ih _ (call_preserves_audit c.1 st c.2 h)

/-- C10: in every store reached from a store without transactions by a
sequence of Deposit, Withdraw and Transfer calls, every transaction record
with status completed has a positive amount and satisfies
`BalanceAfter = BalanceBefore + Amount` if it is a deposit and
`BalanceAfter = BalanceBefore - Amount` if it is a withdrawal or a transfer. -/
theorem audit_invariant (st : Store) (calls : List (Env × Call))
    (h0 : st.transactions = []) :
    ∀ t ∈ (runCalls st calls).transactions, t.Status = .completed →
      0 < t.Amount ∧
        (t.Type_ = .deposit → t.BalanceAfter = t.BalanceBefore + t.Amount) ∧
        (t.Type_ = .withdraw ∨ t.Type_ = .transfer →
          t.BalanceAfter = t.BalanceBefore - t.Amount) := by
  intro t ht hs
  have h := runCalls_preserves_audit calls st (by simp [h0]) t ht hs
  obtain ⟨hpos, hty⟩ := h
  refine ⟨hpos, ?_, ?_⟩
  · intro hd
    rw [hd] at hty
    exact hty
  · intro hw
    rcases hw with hw | hw <;> rw [hw] at hty <;> exact hty

/-- C10 at a concrete input: a refused withdrawal followed by a transfer. -/
theorem audit_invariant_witness :
    st0.transactions = [] ∧
      ∀ t ∈ (runCalls st0 [(env0, .withdraw "B" 50 "cash"),
          (env0, .transfer "A" "B" 30 "rent")]).transactions,
        t.Status = .completed →
        0 < t.Amount ∧
          (t.Type_ = .deposit → t.BalanceAfter = t.BalanceBefore + t.Amount) ∧
          (t.Type_ = .withdraw ∨ t.Type_ = .transfer →
            t.BalanceAfter = t.BalanceBefore - t.Amount) :=
  ⟨rfl, audit_invariant st0
    [(env0, .withdraw "B" 50 "cash"), (env0, .transfer "A" "B" 30 "rent")] rfl⟩

/-! ## The identifier generator -/

theorem hexChars_cons (v : Byte) (bytes : List Byte) :
    hexChars (v :: bytes) = hexDigit (v.val / 16) :: hexDigit (v.val % 16) :: hexChars bytes := by
  simp [hexChars, List.flatMap_cons]

theorem length_hexChars (bytes : List Byte) : (hexChars bytes).length = 2 * bytes.length := by
  induction bytes with
  | nil => rfl
  | cons v bytes ih => rw [hexChars_cons]; simp [ih]; ring

theorem hexChars_take (bytes : List Byte) (k : Nat) :
    (hexChars bytes).take (2 * k) = hexChars (bytes.take k) := by
  induction bytes generalizing k with
  | nil => simp [hexChars]
  | cons v bytes ih =>
    cases k with
    | zero => simp [hexChars]
    | succ k =>
      have h2 : 2 * (k + 1) = 2 * k + 1 + 1 := by ring
      rw [hexChars_cons, h2, List.take_succ_cons, List.take_succ_cons, List.take_succ_cons,
        hexChars_cons, ih]

theorem hexDigit_mem (n : Nat) : hexDigit n ∈ hextable := by
  unfold hexDigit
  rw [List.getD_eq_getElem?_getD]
  cases h : hextable[n]? with
  | none => simp [hextable]
  | some c => simpa using List.getElem?_mem h

theorem hexChars_mem (bytes : List Byte) : ∀ c ∈ hexChars bytes, c ∈ hextable := by
  induction bytes with
  | nil => simp [hexChars]
  | cons v bytes ih =>
    intro c hc
    rw [hexChars_cons] at hc
    rcases List.mem_cons.mp hc with rfl | hc
    · exact hexDigit_mem _
    · rcases List.mem_cons.mp hc with rfl | hc
      · exact hexDigit_mem _
      · exact ih c hc

theorem length_randRead (src : Nat → Byte) (n : Nat) : (randRead src n).length = n := by
  simp [randRead]

theorem length_GenerateTransactionID (src : Nat → Byte) :
    (GenerateTransactionID src).length = 32 := by
  simp [GenerateTransactionID, EncodeToString, length_hexChars, length_randRead]

theorem hexChars_getElem? (bytes : List Byte) (i : Nat) :
    (hexChars bytes)[2 * i]? = (bytes[i]?).map (fun v => hexDigit (v.val / 16)) ∧
      (hexChars bytes)[2 * i + 1]? = (bytes[i]?).map (fun v => hexDigit (v.val % 16)) := by
  induction bytes generalizing i with
  | nil => simp [hexChars]
  | cons v bytes ih =>
    cases i with
    | zero => simp [hexChars_cons]
    | succ i =>
      have h2 : 2 * (i + 1) = 2 * i + 1 + 1 := by ring
      rw [hexChars_cons, h2]
      simp only [List.getElem?_cons_succ]
      exact ih i

theorem randRead_getElem? (src : Nat → Byte) (n i : Nat) (h : i < n) :
    (randRead src n)[i]? = some (src i) := by
  simp [randRead, List.getElem?_map, List.getElem?_range h]

theorem hextable_getElem? (n : Nat) (h : n < 16) :
    "0123456789abcdef".toList[n]? = some (hexDigit n) := by
  interval_cases n <;> rfl

theorem byte_digits_lt (v : Byte) : v.val / 16 < 16 ∧ v.val % 16 < 16 :=
  ⟨by have := v.isLt; omega, Nat.mod_lt _ (by decide)⟩

theorem hexChars_randRead_getElem? (src : Nat → Byte) (n i : Nat) (h : i < n) :
    (hexChars (randRead src n))[2 * i]? = "0123456789abcdef".toList[(src i).val / 16]? ∧
      (hexChars (randRead src n))[2 * i + 1]? =
        "0123456789abcdef".toList[(src i).val % 16]? := by
  have hx := hexChars_getElem? (randRead src n) i
  rw [randRead_getElem? src n i h] at hx
  rw [hextable_getElem? _ (byte_digits_lt (src i)).1,
    hextable_getElem? _ (byte_digits_lt (src i)).2]
  exact hx

/-- C19: whatever bytes `src 0, src 1, ...` the random source delivers,
`GenerateAccountNumber` returns exactly 12 characters, each a digit of
`0123456789abcdef`: for `i < 6` the characters `2i` and `2i+1` are the digits
number `src i / 16` and `src i % 16` of that table, so the result is the hex
encoding of the first 6 bytes, and it is the first 12 characters of the 16
characters that encode all 8 bytes in this way.  `GenerateTransactionID`
returns exactly 32 such characters: for `i < 16` the characters `2i` and `2i+1`
are the digits number `src i / 16` and `src i % 16`. -/
theorem identifier_format (src : Nat → Byte) :
    (GenerateAccountNumber src).length = 12 ∧
      (∀ c ∈ (GenerateAccountNumber src).data, c ∈ "0123456789abcdef".toList) ∧
      (∀ i, i < 6 →
        (GenerateAccountNumber src).data[2 * i]? =
            "0123456789abcdef".toList[(src i).val / 16]? ∧
          (GenerateAccountNumber src).data[2 * i + 1]? =
            "0123456789abcdef".toList[(src i).val % 16]?) ∧
      (∃ enc : List Char, enc.length = 16 ∧
        (∀ i, i < 8 →
          enc[2 * i]? = "0123456789abcdef".toList[(src i).val / 16]? ∧
            enc[2 * i + 1]? = "0123456789abcdef".toList[(src i).val % 16]?) ∧
        (GenerateAccountNumber src).data = enc.take 12) ∧
      (GenerateTransactionID src).length = 32 ∧
      (∀ c ∈ (GenerateTransactionID src).data, c ∈ "0123456789abcdef".toList) ∧
      (∀ i, i < 16 →
        (GenerateTransactionID src).data[2 * i]? =
            "0123456789abcdef".toList[(src i).val / 16]? ∧
          (GenerateTransactionID src).data[2 * i + 1]? =
            "0123456789abcdef".toList[(src i).val % 16]?) := by
  refine ⟨?_, ?_, ?_, ?_, length_GenerateTransactionID src, ?_, ?_⟩
  · simp [GenerateAccountNumber, EncodeToString, length_hexChars, length_randRead]
  · intro c hc
    exact hexChars_mem _ c (List.mem_of_mem_take hc)
  · intro i hi
    have h := hexChars_randRead_getElem? src 8 i (by omega)
    have e1 : ((hexChars (randRead src 8)).take 12)[2 * i]? =
        (hexChars (randRead src 8))[2 * i]? := List.getElem?_take_of_lt (by omega)
    have e2 : ((hexChars (randRead src 8)).take 12)[2 * i + 1]? =
        (hexChars (randRead src 8))[2 * i + 1]? := List.getElem?_take_of_lt (by omega)
    exact ⟨e1.trans h.1, e2.trans h.2⟩
  · refine ⟨hexChars (randRead src 8), ?_, ?_, rfl⟩
    · simp [length_hexChars, length_randRead]
    · intro i hi
      exact hexChars_randRead_getElem? src 8 i hi
  · intro c hc
    exact hexChars_mem _ c hc
  · intro i hi
    exact hexChars_randRead_getElem? src 16 i hi

/-! ## The transactions table under a call -/

theorem call_transactions (env : Env) (st : Store) (call : Call) :
    (call.run env st).2.transactions = st.transactions ∨
    (noClash env st ∧ ∃ t, (call.run env st).1 = .ok t ∧ t.TransactionID = "" ∧
      t.ID = env.newUUID ∧ (call.run env st).2.transactions = st.transactions ++ [t]) := by
  cases call with
  | deposit accountID amount description =>
    rcases deposit_cases env st accountID amount description with ⟨e, he⟩ |
      ⟨account, -, -, hclash, -, -, -, -, hrun⟩
    · left; simp [Call.run, he]
    · right; exact ⟨hclash, depositRecord env account amount description, by simp only [Call.run, hrun], rfl, rfl,
        by simp only [Call.run, hrun]⟩
  | withdraw accountID amount description =>
    rcases withdraw_cases env st accountID amount description with ⟨e, he⟩ |
      ⟨account, -, -, -, hclash, -, -, -, -, hrun⟩
    · left; simp [Call.run, he]
    · right; exact ⟨hclash, withdrawRecord env account amount description, by simp only [Call.run, hrun], rfl, rfl,
        by simp only [Call.run, hrun]⟩
  | transfer fromAccountID toAccountID amount description =>
    rcases transfer_cases env st fromAccountID toAccountID amount description with ⟨e, he⟩ |
      ⟨fromAccount, toAccount, -, -, -, -, -, hclash, -, -, -, -, -, hrun⟩
    · left; simp [Call.run, he]
    · right; exact ⟨hclash, transferRecord env fromAccount toAccount amount description, by simp only [Call.run, hrun], rfl, rfl,
        by simp only [Call.run, hrun]⟩

theorem call_preserves_unique (env : Env) (st : Store) (call : Call)
    (h : st.transactions.Pairwise (fun t u => t.TransactionID ≠ u.TransactionID)) :
    (call.run env st).2.transactions.Pairwise
      (fun t u => t.TransactionID ≠ u.TransactionID) := by
  rcases call_transactions env st call with hsame | ⟨hclash, t, -, hid, -, happ⟩
  · rw [hsame]; exact h
  · rw [happ, List.pairwise_append]
    refine ⟨h, List.pairwise_singleton _ _, ?_⟩
    intro r hr u hu
    rw [List.mem_singleton] at hu
    subst hu
    rw [hid]
    exact (hclash r hr).2

theorem runCalls_preserves_unique (calls : List (Env × Call)) :
    ∀ st : Store, st.transactions.Pairwise (fun t u => t.TransactionID ≠ u.TransactionID) →
      (runCalls st calls).transactions.Pairwise
        (fun t u => t.TransactionID ≠ u.TransactionID) := by
  induction calls with
  | nil => intro st h; simpa [runCalls] using h
  | cons c cs ih =>
    intro st h
    simp only [runCalls, List.foldl_cons]
    exact ih _ (call_preserves_unique c.1 st c.2 h)

/-- C11: starting from a transactions table that satisfies its unique index
(in particular from an empty one), after any sequence of Deposit, Withdraw and
Transfer calls no two records of the table have the same `TransactionID`. -/
theorem transaction_id_unique (st : Store) (calls : List (Env × Call))
    (h0 : st.transactions.Pairwise (fun t u => t.TransactionID ≠ u.TransactionID)) :
    (runCalls st calls).transactions.Pairwise
      (fun t u => t.TransactionID ≠ u.TransactionID) :=
  runCalls_preserves_unique calls st h0

/-- C11 at a concrete input: a deposit followed by a transfer, from the empty
table. -/
theorem transaction_id_unique_witness :
    st0.transactions.Pairwise (fun t u => t.TransactionID ≠ u.TransactionID) ∧
      (runCalls st0 [(env0, .deposit "A" 100 "pay"),
        (env0, .transfer "A" "B" 30 "rent")]).transactions.Pairwise
        (fun t u => t.TransactionID ≠ u.TransactionID) :=
  ⟨List.Pairwise.nil, transaction_id_unique st0
    [(env0, .deposit "A" 100 "pay"), (env0, .transfer "A" "B" 30 "rent")] List.Pairwise.nil⟩

/-- C12 (the code at a concrete input): a successful deposit, withdrawal and
transfer on the store `st0` each return and store a record whose
`TransactionID` is the empty string, which is no output of
`GenerateTransactionID`. -/
theorem ledger_transaction_id_empty :
    (∃ t st', ProcessDeposit env0 st0 "A" 100 "pay" = (.ok t, st') ∧
        t ∈ st'.transactions ∧ t.TransactionID = "" ∧
        ∀ src, t.TransactionID ≠ GenerateTransactionID src) ∧
      (∃ t st', ProcessWithdrawal env0 st0 "A" 50 "cash" = (.ok t, st') ∧
        t ∈ st'.transactions ∧ t.TransactionID = "" ∧
        ∀ src, t.TransactionID ≠ GenerateTransactionID src) ∧
      (∃ t st', ProcessTransfer env0 st0 "A" "B" 30 "rent" = (.ok t, st') ∧
        t ∈ st'.transactions ∧ t.TransactionID = "" ∧
        ∀ src, t.TransactionID ≠ GenerateTransactionID src) := by
  have hne : ∀ src, ("" : String) ≠ GenerateTransactionID src := by
    intro src h
    have hl := length_GenerateTransactionID src
    rw [← h] at hl
    simp at hl
  have hclash : noClash env0 st0 := by simp [noClash, st0]
  have hA : GetAccountByID env0 .findAccount st0 "A" = .ok (mkAccount 1 100) := rfl
  have hB : GetAccountByID env0 .findToAccount st0 "B" = .ok (mkAccount 2 10) := rfl
  refine ⟨⟨_, _, deposit_success env0 st0 "A" 100 "pay" (mkAccount 1 100) (by norm_num) hA
      hclash rfl rfl rfl rfl, by simp, rfl, hne⟩,
    ⟨_, _, withdraw_success env0 st0 "A" 50 "cash" (mkAccount 1 100) (by norm_num) hA
      (by norm_num [mkAccount]) hclash rfl rfl rfl rfl, by simp, rfl, hne⟩,
    ⟨_, _, transfer_success env0 st0 "A" "B" 30 "rent" (mkAccount 1 100) (mkAccount 2 10)
      (by norm_num) hA hB (by decide) (by norm_num [mkAccount]) hclash rfl rfl rfl rfl rfl,
      by simp, rfl, hne⟩⟩

/-- C18: after any call of Deposit, Withdraw or Transfer, successful or not,
the transactions table begins with the table as it was before the call: every
record that was in the store, in particular every completed or failed one, is
still there with every field unchanged. -/
theorem completed_transactions_immutable (env : Env) (st : Store) (call : Call) :
    st.transactions <+: (call.run env st).2.transactions ∧
      ∀ t ∈ st.transactions, t.Status = .completed ∨ t.Status = .failed →
        t ∈ (call.run env st).2.transactions := by
  have hp : st.transactions <+: (call.run env st).2.transactions := by
    rcases call_transactions env st call with hsame | ⟨-, t, -, -, -, happ⟩
    · rw [hsame]
    · rw [happ]; exact List.prefix_append _ _
  exact ⟨hp, fun t ht _ => hp.subset ht⟩

/-! ## The transaction history of an account -/

theorem transactionsOf_perm (st : Store) (a : UUID) :
    (transactionsOf st a).Perm
      (st.transactions.filter (fun t => decide (t.AccountID = a ∨ t.ToAccountID = some a))) := by
  have hf : involves a = fun t => decide (t.AccountID = a ∨ t.ToAccountID = some a) := by
    funext t
    by_cases h1 : t.AccountID = a <;> by_cases h2 : t.ToAccountID = some a <;>
      simp [involves, h1, h2]
  unfold transactionsOf
  rw [hf]
  exact List.perm_insertionSort _ _

theorem transactionsOf_sorted (st : Store) (a : UUID) :
    (transactionsOf st a).Sorted (fun t u => u.CreatedAt ≤ t.CreatedAt) := by
  unfold transactionsOf
  have htot : IsTotal Transaction (fun t u => u.CreatedAt ≤ t.CreatedAt) :=
    ⟨fun t u => le_total u.CreatedAt t.CreatedAt⟩
  have htr : IsTrans Transaction (fun t u => u.CreatedAt ≤ t.CreatedAt) :=
    ⟨fun _ _ _ h1 h2 => le_trans h2 h1⟩
  exact List.sorted_insertionSort _ _

theorem mem_transactionsOf (st : Store) (a : UUID) (t : Transaction) :
    t ∈ transactionsOf st a ↔
      t ∈ st.transactions ∧ (t.AccountID = a ∨ t.ToAccountID = some a) := by
  rw [(transactionsOf_perm st a).mem_iff, List.mem_filter]
  simp

theorem GetTransactionsByAccountID_ok (env : Env) (st : Store) (accountID : String) (a : UUID)
    (limit offset : Int) (hp : env.parse accountID = some a) (hl : 1 ≤ limit) :
    GetTransactionsByAccountID env false st accountID limit offset =
      .ok (((transactionsOf st a).drop offset.toNat).take limit.toNat) := by
  have hl' : ¬ limit ≤ 0 := by omega
  simp [GetTransactionsByAccountID, hp, hl', dbLimitOffset]

/-- C14: for a well-formed account id `a`, `limit ≥ 1` and `offset ≥ 0` (the
query itself not failing), `GetTransactionsByAccountID` returns the elements at
positions `offset .. offset+limit-1` of a list `all` that holds exactly the
records with `AccountID = a` or `ToAccountID = a` and is ordered by creation
time, newest first.  Hence every returned record involves `a`, the page is in
non-increasing creation-time order and has at most `limit` entries, and every
record involving `a` as source or as destination (so a transfer from A to B,
for `a = A` and for `a = B`) appears in the page at some offset. -/
theorem listTransactions_page (env : Env) (st : Store) (accountID : String) (a : UUID)
    (limit offset : Int) (hp : env.parse accountID = some a) (hl : 1 ≤ limit)
    (_ho : 0 ≤ offset) :
    ∃ all page : List Transaction,
      GetTransactionsByAccountID env false st accountID limit offset = .ok page ∧
      all.Perm (st.transactions.filter
        (fun t => decide (t.AccountID = a ∨ t.ToAccountID = some a))) ∧
      all.Sorted (fun t u => u.CreatedAt ≤ t.CreatedAt) ∧
      page = (all.drop offset.toNat).take limit.toNat ∧
      (∀ t ∈ page, t ∈ st.transactions ∧ (t.AccountID = a ∨ t.ToAccountID = some a)) ∧
      page.Sorted (fun t u => u.CreatedAt ≤ t.CreatedAt) ∧
      (page.length : Int) ≤ limit ∧
      (∀ t ∈ st.transactions, t.AccountID = a ∨ t.ToAccountID = some a →
        ∃ off : Int, 0 ≤ off ∧ ∃ pg,
          GetTransactionsByAccountID env false st accountID limit off = .ok pg ∧ t ∈ pg) := by
  have hsub : (((transactionsOf st a).drop offset.toNat).take limit.toNat).Sublist
      (transactionsOf st a) :=
    (List.take_sublist _ _).trans (List.drop_sublist _ _)
  refine ⟨transactionsOf st a, _,
    GetTransactionsByAccountID_ok env st accountID a limit offset hp hl,
    transactionsOf_perm st a, transactionsOf_sorted st a, rfl, ?_, ?_, ?_, ?_⟩
  · intro t ht
    exact (mem_transactionsOf st a t).mp (hsub.subset ht)
  · exact List.Pairwise.sublist hsub (transactionsOf_sorted st a)
  · have h1 := List.length_take_le limit.toNat ((transactionsOf st a).drop offset.toNat)
    have h2 : (limit.toNat : Int) = limit := Int.toNat_of_nonneg (by omega)
    omega
  · intro t ht hinv
    obtain ⟨n, hn, hget⟩ := List.getElem_of_mem ((mem_transactionsOf st a t).mpr ⟨ht, hinv⟩)
    refine ⟨(n : Int), Int.natCast_nonneg n, _,
      GetTransactionsByAccountID_ok env st accountID a limit n hp hl, ?_⟩
    have hlim : limit.toNat = (limit.toNat - 1) + 1 := by omega
    rw [Int.toNat_ofNat, List.drop_eq_getElem_cons hn, hlim, List.take_succ_cons, hget]
    exact List.mem_cons_self _ _

/-- C14 at a concrete input: the second page of size 1 of account 1, which
is the source of one transfer and the destination of another. -/
theorem listTransactions_page_witness :
    ∃ all page : List Transaction,
      GetTransactionsByAccountID env0 false stHistory "A" 1 1 = .ok page ∧
      all.Perm (stHistory.transactions.filter
        (fun t => decide (t.AccountID = 1 ∨ t.ToAccountID = some 1))) ∧
      all.Sorted (fun t u => u.CreatedAt ≤ t.CreatedAt) ∧
      page = (all.drop (1 : Int).toNat).take (1 : Int).toNat ∧
      (∀ t ∈ page, t ∈ stHistory.transactions ∧ (t.AccountID = 1 ∨ t.ToAccountID = some 1)) ∧
      page.Sorted (fun t u => u.CreatedAt ≤ t.CreatedAt) ∧
      (page.length : Int) ≤ 1 ∧
      (∀ t ∈ stHistory.transactions, t.AccountID = 1 ∨ t.ToAccountID = some 1 →
        ∃ off : Int, 0 ≤ off ∧ ∃ pg,
          GetTransactionsByAccountID env0 false stHistory "A" 1 off = .ok pg ∧ t ∈ pg) :=
  listTransactions_page env0 stHistory "A" 1 1 1 rfl (le_refl 1) (by decide)

/-- C15 (as stated, refuted): with the negative limit -1 the listing of
account 1 does not fail; it returns the account's record. -/
theorem listTransactions_negative_limit_accepted :
    GetTransactionsByAccountID env0 false stDeposited "A" (-1) 0 =
      .ok [depositRecord env0 (mkAccount 1 100) 100 "pay"] := by
  rfl

/-- C15 (amended): for a well-formed account id and any limit and offset, in
particular a negative limit or a negative offset, the listing does not fail
when the query itself does not: a limit that is not positive is replaced by 50
and a negative offset is treated as no offset, so the call returns what it
returns for the limit 50 (or the given positive limit) and the offset 0 (or
the given offset). -/
theorem listTransactions_bounds_defaulted (env : Env) (st : Store) (accountID : String)
    (a : UUID) (limit offset : Int) (hp : env.parse accountID = some a) :
    (∃ page, GetTransactionsByAccountID env false st accountID limit offset = .ok page) ∧
      GetTransactionsByAccountID env false st accountID limit offset =
        GetTransactionsByAccountID env false st accountID
          (if limit ≤ 0 then 50 else limit) (max offset 0) := by
  refine ⟨by simp [GetTransactionsByAccountID, hp], ?_⟩
  have hmax : (max offset 0).toNat = offset.toNat := by
    rcases le_total offset 0 with h | h
    · rw [max_eq_right h, Int.toNat_eq_zero.mpr h]; rfl
    · rw [max_eq_left h]
  by_cases hl : limit ≤ 0
  · simp [GetTransactionsByAccountID, hp, hl, dbLimitOffset, hmax]
  · simp [GetTransactionsByAccountID, hp, hl, dbLimitOffset, hmax]

/-- C15 (amended) at a concrete input: limit -1 and offset -1. -/
theorem listTransactions_bounds_defaulted_witness :
    (∃ page, GetTransactionsByAccountID env0 false stHistory "A" (-1) (-1) = .ok page) ∧
      GetTransactionsByAccountID env0 false stHistory "A" (-1) (-1) =
        GetTransactionsByAccountID env0 false stHistory "A"
          (if (-1 : Int) ≤ 0 then 50 else -1) (max (-1) 0) :=
  listTransactions_bounds_defaulted env0 stHistory "A" 1 (-1) (-1) rfl

/-- C16 (as stated, refuted): the store `stDeposited` holds a record whose
`TransactionID` is the empty string, yet the lookup of the empty string fails
with `invalid transaction ID`; and no record has the `TransactionID` `"T"`, yet
the lookup of `"T"`, which parses to the `ID` of the record, returns it. -/
theorem getTransaction_not_by_transaction_id :
    (∃ t ∈ stDeposited.transactions, t.TransactionID = "" ∧
        GetTransactionByID envT false stDeposited "" = .error .invalidTransactionID) ∧
      ((∀ t ∈ stDeposited.transactions, t.TransactionID ≠ "T") ∧
        GetTransactionByID envT false stDeposited "T" =
          .ok (depositRecord env0 (mkAccount 1 100) 100 "pay")) := by
  refine ⟨⟨depositRecord env0 (mkAccount 1 100) 100 "pay", by simp [stDeposited], rfl, rfl⟩,
    ?_, rfl⟩
  intro t ht
  simp only [stDeposited, List.mem_singleton] at ht
  subst ht
  decide

/-- C16 (amended): `GetTransactionByID` parses its argument as a UUID.  If the
argument is no UUID it fails with `invalid transaction ID`; otherwise, the
query itself not failing, it returns a record of the store whose `ID` is the
parsed value when there is one, and fails with `transaction not found` when no
record has that `ID`. -/
theorem getTransaction_by_id (env : Env) (st : Store) (k : String) :
    (env.parse k = none → GetTransactionByID env false st k = .error .invalidTransactionID) ∧
      ∀ id, env.parse k = some id →
        ((∃ r ∈ st.transactions, r.ID = id) →
          ∃ t, GetTransactionByID env false st k = .ok t ∧ t ∈ st.transactions ∧ t.ID = id) ∧
        ((∀ r ∈ st.transactions, r.ID ≠ id) →
          GetTransactionByID env false st k = .error .transactionNotFound) := by
  refine ⟨fun hp => by simp [GetTransactionByID, hp], ?_⟩
  intro id hp
  constructor
  · rintro ⟨r, hr, hid⟩
    cases hfind : st.transactions.find? (fun t => t.ID == id) with
    | none =>
      have := List.find?_eq_none.mp hfind r hr
      simp [hid] at this
    | some t =>
      refine ⟨t, by simp [GetTransactionByID, hp, hfind], List.mem_of_find?_eq_some hfind, ?_⟩
      simpa using List.find?_some hfind
  · intro hnone
    have hfind : st.transactions.find? (fun t => t.ID == id) = none := by
      rw [List.find?_eq_none]
      intro r hr
      simp [hnone r hr]
    simp [GetTransactionByID, hp, hfind]

/-- C17: for well-formed identifiers of an account and of a user, and the
count query not failing, `ValidateAccountOwnership` succeeds exactly when the
store holds an active account with that id owned by that user.  In particular
it fails when the account with that id is deactivated and when it belongs to
another user.  The function only reads the store. -/
theorem ownership_gate (env : Env) (st : Store) (accountID userID : String) (a u : UUID)
    (hpa : env.parse accountID = some a) (hpu : env.parse userID = some u) :
    (ValidateAccountOwnership env false st accountID userID = .ok () ↔
        ∃ acc ∈ st.accounts, acc.ID = a ∧ acc.UserID = u ∧ acc.IsActive = true) ∧
      ((∀ acc ∈ st.accounts, acc.ID = a → acc.IsActive = false) →
        ValidateAccountOwnership env false st accountID userID =
          .error .accountNotFoundOrAccessDenied) ∧
      ((∀ acc ∈ st.accounts, acc.ID = a → acc.UserID ≠ u) →
        ValidateAccountOwnership env false st accountID userID =
          .error .accountNotFoundOrAccessDenied) := by
  have key : ValidateAccountOwnership env false st accountID userID =
      if st.accounts.countP (fun x => x.ID == a && x.UserID == u && x.IsActive) = 0
      then .error .accountNotFoundOrAccessDenied else .ok () := by
    simp [ValidateAccountOwnership, hpa, hpu]
  have hzero : st.accounts.countP (fun x => x.ID == a && x.UserID == u && x.IsActive) = 0 ↔
      ¬ ∃ acc ∈ st.accounts, acc.ID = a ∧ acc.UserID = u ∧ acc.IsActive = true := by
    rw [List.countP_eq_zero]
    simp [and_assoc]
  refine ⟨?_, ?_, ?_⟩
  · rw [key]
    by_cases h : st.accounts.countP (fun x => x.ID == a && x.UserID == u && x.IsActive) = 0
    · simp only [h, if_true]
      constructor
      · intro hc; cases hc
      · intro hex; exact absurd hex (hzero.mp h)
    · simp only [h, if_false, true_iff]
      by_contra hne
      exact h (hzero.mpr hne)
  · intro hin
    rw [key, if_pos]
    rw [hzero]
    rintro ⟨acc, hacc, hid, -, hact⟩
    rw [hin acc hacc hid] at hact
    cases hact
  · intro hother
    rw [key, if_pos]
    rw [hzero]
    rintro ⟨acc, hacc, hid, hu, -⟩
    exact hother acc hacc hid hu

/-- C17 at a concrete input: account 1, active and owned by user 2. -/
theorem ownership_gate_witness :
    (ValidateAccountOwnership env0 false stOwned "A" "B" = .ok () ↔
        ∃ acc ∈ stOwned.accounts, acc.ID = 1 ∧ acc.UserID = 2 ∧ acc.IsActive = true) ∧
      ((∀ acc ∈ stOwned.accounts, acc.ID = 1 → acc.IsActive = false) →
        ValidateAccountOwnership env0 false stOwned "A" "B" =
          .error .accountNotFoundOrAccessDenied) ∧
      ((∀ acc ∈ stOwned.accounts, acc.ID = 1 → acc.UserID ≠ 2) →
        ValidateAccountOwnership env0 false stOwned "A" "B" =
          .error .accountNotFoundOrAccessDenied) :=
  ownership_gate env0 stOwned "A" "B" 1 2 rfl rfl

/-! ## The sum of all balances -/

theorem setBalance_ID (id : UUID) (b : ℚ) (a : Account) : (setBalance id b a).ID = a.ID := by
  unfold setBalance
  split <;> rfl

theorem map_setBalance_IDs (l : List Account) (id : UUID) (b : ℚ) :
    (l.map (setBalance id b)).map (fun a => a.ID) = l.map (fun a => a.ID) := by
  rw [List.map_map]
  apply List.map_congr_left
  intro a _
  exact setBalance_ID id b a

theorem map_setBalance_absent (l : List Account) (id : UUID) (b : ℚ)
    (h : ∀ a ∈ l, a.ID ≠ id) : l.map (setBalance id b) = l := by
  conv_rhs => rw [← List.map_id l]
  apply List.map_congr_left
  intro a ha
  simp [setBalance, h a ha]

theorem sum_map_setBalance (l : List Account) (a : Account) (b : ℚ)
    (hnd : (l.map (fun x => x.ID)).Nodup) (ha : a ∈ l) :
    ((l.map (setBalance a.ID b)).map (fun x => x.Balance)).sum =
      (l.map (fun x => x.Balance)).sum - a.Balance + b := by
  induction l with
  | nil => cases ha
  | cons x xs ih =>
    rw [List.map_cons, List.nodup_cons] at hnd
    obtain ⟨hx, hxs⟩ := hnd
    rcases List.mem_cons.mp ha with rfl | ha'
    · have habs : ∀ y ∈ xs, y.ID ≠ a.ID := by
        intro y hy hEq
        exact hx (List.mem_map.mpr ⟨y, hy, hEq⟩)
      rw [List.map_cons, map_setBalance_absent xs a.ID b habs]
      simp [setBalance]
      ring
    · have hne : x.ID ≠ a.ID := by
        intro hEq
        exact hx (List.mem_map.mpr ⟨a, ha', hEq.symm⟩)
      rw [List.map_cons, List.map_cons, List.sum_cons, ih hxs ha']
      simp [setBalance, hne]
      ring

theorem GetAccountByID_parse (env : Env) (step : Step) (st : Store) (accountID : String)
    (account : Account) (h : GetAccountByID env step st accountID = .ok account) :
    env.parse accountID = some account.ID := by
  unfold GetAccountByID at h
  split at h
  · simp at h
  · rename_i id hp
    split at h
    · simp at h
    · split at h
      · simp at h
      · rename_i a ha
        simp only [Except.ok.injEq] at h
        subst h
        rw [hp, firstActiveAccount_id st id a ha]

theorem forall₂_map_setBalance (l : List Account) (id : UUID) (b : ℚ) (named : List UUID)
    (hid : id ∈ named) :
    List.Forall₂ (fun a a' => a' = { a with Balance := a'.Balance } ∧ (a.ID ∉ named → a' = a))
      l (l.map (setBalance id b)) := by
  rw [List.forall₂_map_right_iff, List.forall₂_same]
  intro a _
  unfold setBalance
  split
  · rename_i h
    exact ⟨rfl, fun hn => absurd (h ▸ hid) hn⟩
  · exact ⟨rfl, fun _ => rfl⟩

theorem forall₂_map_setBalance_twice (l : List Account) (id1 id2 : UUID) (b1 b2 : ℚ)
    (named : List UUID) (h1 : id1 ∈ named) (h2 : id2 ∈ named) :
    List.Forall₂ (fun a a' => a' = { a with Balance := a'.Balance } ∧ (a.ID ∉ named → a' = a))
      l ((l.map (setBalance id1 b1)).map (setBalance id2 b2)) := by
  rw [List.forall₂_map_right_iff, List.forall₂_map_right_iff, List.forall₂_same]
  intro a _
  have hs1 : setBalance id1 b1 a = if a.ID = id1 then { a with Balance := b1 } else a := rfl
  by_cases ha1 : a.ID = id1
  · have e1 : setBalance id1 b1 a = { a with Balance := b1 } := by rw [hs1, if_pos ha1]
    rw [e1]
    refine ⟨?_, fun hn => absurd (ha1 ▸ h1) hn⟩
    unfold setBalance
    split <;> rfl
  · have e1 : setBalance id1 b1 a = a := by rw [hs1, if_neg ha1]
    rw [e1]
    unfold setBalance
    split
    · rename_i h
      exact ⟨rfl, fun hn => absurd (h ▸ h2) hn⟩
    · exact ⟨rfl, fun _ => rfl⟩

theorem forall₂_accounts_same (l : List Account) (named : List UUID) :
    List.Forall₂ (fun a a' => a' = { a with Balance := a'.Balance } ∧ (a.ID ∉ named → a' = a))
      l l :=
  List.forall₂_same.mpr (fun _ _ => ⟨rfl, fun _ => rfl⟩)

/-- C20: in a store whose account ids are pairwise distinct (the primary key
of the accounts table), after any ledger call the sum of all balances is the
sum before plus the signed effect of the call: the amount for a successful
deposit, minus the amount for a successful withdrawal, and nothing for a
transfer, successful or not, and for any failed call.  Row by row, the
accounts after the call are the accounts before it, except possibly for the
balance, and an account not named in the call is unchanged in every field. -/
theorem conservation_of_money (env : Env) (st : Store) (call : Call)
    (hpk : (st.accounts.map (fun a => a.ID)).Nodup) :
    totalBalance (call.run env st).2 =
        totalBalance st + signedEffect call (call.run env st).1 ∧
      List.Forall₂
        (fun a a' => a' = { a with Balance := a'.Balance } ∧ (a.ID ∉ call.named env → a' = a))
        st.accounts (call.run env st).2.accounts := by
  cases call with
  | deposit accountID amount description =>
    rcases deposit_cases env st accountID amount description with ⟨e, he⟩ |
      ⟨account, -, hget, -, -, -, -, -, hrun⟩
    · simp only [Call.run, he, signedEffect, add_zero, true_and]
      exact forall₂_accounts_same _ _
    · have hmem := GetAccountByID_mem env _ st accountID account hget
      have hparse := GetAccountByID_parse env _ st accountID account hget
      simp only [Call.run, hrun, signedEffect, totalBalance, Call.named, hparse]
      refine ⟨?_, forall₂_map_setBalance _ _ _ _ (by simp)⟩
      rw [sum_map_setBalance st.accounts account _ hpk hmem]
      ring
  | withdraw accountID amount description =>
    rcases withdraw_cases env st accountID amount description with ⟨e, he⟩ |
      ⟨account, -, hget, -, -, -, -, -, -, hrun⟩
    · simp only [Call.run, he, signedEffect, add_zero, true_and]
      exact forall₂_accounts_same _ _
    · have hmem := GetAccountByID_mem env _ st accountID account hget
      have hparse := GetAccountByID_parse env _ st accountID account hget
      simp only [Call.run, hrun, signedEffect, totalBalance, Call.named, hparse]
      refine ⟨?_, forall₂_map_setBalance _ _ _ _ (by simp)⟩
      rw [sum_map_setBalance st.accounts account _ hpk hmem]
      ring
  | transfer fromAccountID toAccountID amount description =>
    rcases transfer_cases env st fromAccountID toAccountID amount description with ⟨e, he⟩ |
      ⟨fromAccount, toAccount, -, hfrom, hto, hne, -, -, -, -, -, -, -, hrun⟩
    · simp only [Call.run, he, signedEffect, add_zero, true_and]
      exact forall₂_accounts_same _ _
    · have hmemF := GetAccountByID_mem env _ st fromAccountID fromAccount hfrom
      have hmemT := GetAccountByID_mem env _ st toAccountID toAccount hto
      have hparseF := GetAccountByID_parse env _ st fromAccountID fromAccount hfrom
      have hparseT := GetAccountByID_parse env _ st toAccountID toAccount hto
      simp only [Call.run, hrun, signedEffect, totalBalance, Call.named, hparseF, hparseT]
      refine ⟨?_, forall₂_map_setBalance_twice _ _ _ _ _ _ (by simp) (by simp)⟩
      have hmemT' : toAccount ∈
          st.accounts.map (setBalance fromAccount.ID (fromAccount.Balance - amount)) := by
        refine List.mem_map.mpr ⟨toAccount, hmemT, ?_⟩
        simp [setBalance, Ne.symm hne]
      have hpk' : ((st.accounts.map
          (setBalance fromAccount.ID (fromAccount.Balance - amount))).map
            (fun a => a.ID)).Nodup := by
        rw [map_setBalance_IDs]
        exact hpk
      rw [sum_map_setBalance _ toAccount _ hpk' hmemT',
        sum_map_setBalance st.accounts fromAccount _ hpk hmemF]
      ring

/-- C20 at a concrete input: a transfer of 30 from account 1 to account 2. -/
theorem conservation_of_money_witness :
    (st0.accounts.map (fun a => a.ID)).Nodup ∧
      (totalBalance ((Call.transfer "A" "B" 30 "rent").run env0 st0).2 =
          totalBalance st0 +
            signedEffect (Call.transfer "A" "B" 30 "rent")
              ((Call.transfer "A" "B" 30 "rent").run env0 st0).1 ∧
        List.Forall₂
          (fun a a' => a' = { a with Balance := a'.Balance } ∧
            (a.ID ∉ (Call.transfer "A" "B" 30 "rent").named env0 → a' = a))
          st0.accounts ((Call.transfer "A" "B" 30 "rent").run env0 st0).2.accounts) :=
  ⟨by decide, conservation_of_money env0 st0 (Call.transfer "A" "B" 30 "rent") (by decide)⟩

/-! ## Repeated calls -/

theorem withdraw_after_ledger_record (env : Env) (st : Store) (accountID : String)
    (amount : ℚ) (description : String) (A : Account)
    (hpA : env.parse accountID = some A.ID) (hf : env.fails .findAccount = false)
    (hA : firstActiveAccount st A.ID = some A)
    (hpos : 0 < amount) (hbal : amount ≤ A.Balance)
    (hrec : ∃ r ∈ st.transactions, r.TransactionID = "") :
    ProcessWithdrawal env st accountID amount description =
      (.error .failedToCreateTransaction, st) := by
  have hget := GetAccountByID_ok env .findAccount st accountID A.ID A hpA hf hA
  have hclash : ¬ noClash env st := by
    intro h
    obtain ⟨r, hr, hk⟩ := hrec
    exact (h r hr).2 hk
  have h1 := any_clash_true env st hclash
  cases hc : env.fails .create with
  | true =>
    simp [ProcessWithdrawal, not_le.mpr hpos, not_lt.mpr hbal, hget, dbCreate, hc]
  | false =>
    simp [ProcessWithdrawal, not_le.mpr hpos, not_lt.mpr hbal, hget, dbCreate, hc,
      BeforeCreate, h1]

/-- C21 (the code at a concrete input): four withdrawals of 30 in a row from
account 1, which holds 100, with no statement failing and a fresh identifier
for every call.  The first call succeeds and leaves 70; each of the three
later calls fails with `failed to create transaction`, on the clash of the
empty `TransactionID` with the record of the first call, and the balance
stays 70, although `⌊100 / 30⌋ = 3` withdrawals fit into the balance and would
leave 10. -/
theorem repeated_withdrawals_blocked :
    (runCallsTrace st0 [(envAt 7, .withdraw "A" 30 "w"), (envAt 8, .withdraw "A" 30 "w"),
        (envAt 9, .withdraw "A" 30 "w"), (envAt 10, .withdraw "A" 30 "w")]).1 =
        [.ok (withdrawRecord (envAt 7) (mkAccount 1 100) 30 "w"),
          .error .failedToCreateTransaction, .error .failedToCreateTransaction,
          .error .failedToCreateTransaction] ∧
      firstActiveAccount
        (runCallsTrace st0 [(envAt 7, .withdraw "A" 30 "w"), (envAt 8, .withdraw "A" 30 "w"),
          (envAt 9, .withdraw "A" 30 "w"), (envAt 10, .withdraw "A" 30 "w")]).2 1 =
        some (mkAccount 1 70) ∧
      ⌊(100 : ℚ) / 30⌋ = 3 ∧ (100 : ℚ) - 3 * 30 = 10 := by
  have hclash : noClash (envAt 7) st0 := by simp [noClash, st0]
  have h1 : ProcessWithdrawal (envAt 7) st0 "A" 30 "w" =
      (.ok (withdrawRecord (envAt 7) (mkAccount 1 100) 30 "w"),
        { accounts := [mkAccount 1 (100 - 30), mkAccount 2 10],
          transactions := [withdrawRecord (envAt 7) (mkAccount 1 100) 30 "w"] }) :=
    withdraw_success (envAt 7) st0 "A" 30 "w" (mkAccount 1 100) (by norm_num) rfl
      (by norm_num [mkAccount]) hclash rfl rfl rfl rfl
  have h2 : ∀ n, ProcessWithdrawal (envAt n)
      { accounts := [mkAccount 1 (100 - 30), mkAccount 2 10],
        transactions := [withdrawRecord (envAt 7) (mkAccount 1 100) 30 "w"] } "A" 30 "w" =
      (.error .failedToCreateTransaction,
        { accounts := [mkAccount 1 (100 - 30), mkAccount 2 10],
          transactions := [withdrawRecord (envAt 7) (mkAccount 1 100) 30 "w"] }) :=
    fun n => withdraw_after_ledger_record (envAt n) _ "A" 30 "w" (mkAccount 1 (100 - 30))
      rfl rfl rfl (by norm_num) (by norm_num [mkAccount])
      ⟨withdrawRecord (envAt 7) (mkAccount 1 100) 30 "w", by simp, rfl⟩
  refine ⟨?_, ?_, ?_, by norm_num⟩
  · simp only [runCallsTrace, Call.run, h1, h2]
  · simp only [runCallsTrace, Call.run, h1, h2]
    norm_num [firstActiveAccount, mkAccount]
  · rw [Int.floor_eq_iff]
    constructor <;> norm_num

end CoreBanking
